import Mathlib

/-!
Verification of the cookie-extraction / session-encryption logic of the
shippingmanager_messanger repository (src/helper/get_session_windows.py and
src/start.py), as a shallow embedding in Lean 4.

Python strings are modelled as lists of Unicode code points (`PyStr`) —
unlike Lean's `String`, Python's `str` may hold lone surrogates, which is
exactly what makes `str.encode('utf-8')` fallible and drives one of the
error-handling paths of `encrypt_cookie`.  Byte strings are lists of
naturals below 256.  External library primitives that the source calls
(AES-256-GCM from `cryptography`, SHA-256 and base64 from the standard
library, UTF-8 and percent decoding) are implemented concretely and
executably below, following their published algorithms, and are validated
against standard test vectors in the theorem section.
-/

/-- Model of a Python `str`: a list of Unicode code points. -/
abbrev PyStr := List Nat

/-- Model of a Python `bytes`: a list of naturals below 256. -/
abbrev PyBytes := List Nat

/-- Converts a Lean string literal into the `PyStr` model. -/
def pstr (s : String) : PyStr := s.data.map Char.toNat

/-- Python `s.startswith(p)` on the `PyStr` model. -/
def pyStartsWith : PyStr → PyStr → Bool
  | [], _ => true
  | _ :: _, [] => false
  | p :: ps, c :: cs => p == c && pyStartsWith ps cs

/-- Whitespace code points stripped by Python `str.strip()` (the ASCII part
plus the most common Unicode spaces; the exotic ones are irrelevant to every
theorem below). -/
def pyIsSpace (c : Nat) : Bool :=
  c == 9 || c == 10 || c == 11 || c == 12 || c == 13 ||
  c == 28 || c == 29 || c == 30 || c == 31 || c == 32 || c == 133 || c == 160

/-- Python `str.strip()`: drop whitespace from both ends. -/
def pyStrip (s : PyStr) : PyStr :=
  ((s.dropWhile pyIsSpace).reverse.dropWhile pyIsSpace).reverse

/-- Valid Unicode scalar value: in range and not a surrogate.  Python code
points outside this set make `str.encode('utf-8')` raise. -/
def validScalar (c : Nat) : Prop := c < 0x110000 ∧ ¬(0xD800 ≤ c ∧ c < 0xE000)

instance (c : Nat) : Decidable (validScalar c) := by
  unfold validScalar; infer_instance

/-- Predicate: every code point of the string is a valid scalar value. -/
def ValidStr (s : PyStr) : Prop := ∀ c ∈ s, validScalar c

instance (s : PyStr) : Decidable (ValidStr s) := by
  unfold ValidStr; infer_instance

/-- UTF-8 encoding of a single valid scalar value. -/
def utf8Char (c : Nat) : PyBytes :=
  if c < 0x80 then [c]
  else if c < 0x800 then [0xC0 + c / 64, 0x80 + c % 64]
  else if c < 0x10000 then [0xE0 + c / 4096, 0x80 + c / 64 % 64, 0x80 + c % 64]
  else [0xF0 + c / 262144, 0x80 + c / 4096 % 64, 0x80 + c / 64 % 64, 0x80 + c % 64]

/-- Python `str.encode('utf-8')`: fails (raises `UnicodeEncodeError`) when the
string contains a code point that is not a valid scalar value. -/
def utf8Encode : PyStr → Option PyBytes
  | [] => some []
  | c :: rest =>
    if validScalar c then (utf8Encode rest).map (utf8Char c ++ ·) else none

/-- Continuation-byte test for UTF-8 decoding. -/
def utf8Cont (b : Nat) : Bool := 0x80 ≤ b && b < 0xC0

/-- Scalar value of a two-byte UTF-8 sequence. -/
def utf8Val2 (b b1 : Nat) : Nat := (b - 0xC0) * 64 + (b1 - 0x80)

/-- Scalar value of a three-byte UTF-8 sequence. -/
def utf8Val3 (b b1 b2 : Nat) : Nat := (b - 0xE0) * 4096 + (b1 - 0x80) * 64 + (b2 - 0x80)

/-- Scalar value of a four-byte UTF-8 sequence. -/
def utf8Val4 (b b1 b2 b3 : Nat) : Nat :=
  (b - 0xF0) * 262144 + (b1 - 0x80) * 4096 + (b2 - 0x80) * 64 + (b3 - 0x80)

/-- Continuation byte of a UTF-8 sequence. -/
def utf8IsCont (b : Nat) : Prop := 0x80 ≤ b ∧ b < 0xC0

instance (b : Nat) : Decidable (utf8IsCont b) := by unfold utf8IsCont; infer_instance

/-- Well-formedness of a three-byte UTF-8 sequence: continuation bytes, no
overlong encoding, no surrogate. -/
def utf8Ok3 (b b1 b2 : Nat) : Prop :=
  utf8IsCont b1 ∧ utf8IsCont b2 ∧ 0x800 ≤ utf8Val3 b b1 b2 ∧
    ¬(0xD800 ≤ utf8Val3 b b1 b2 ∧ utf8Val3 b b1 b2 < 0xE000)

instance (b b1 b2 : Nat) : Decidable (utf8Ok3 b b1 b2) := by unfold utf8Ok3; infer_instance

/-- Well-formedness of a four-byte UTF-8 sequence: continuation bytes, no
overlong encoding, in Unicode range. -/
def utf8Ok4 (b b1 b2 b3 : Nat) : Prop :=
  utf8IsCont b1 ∧ utf8IsCont b2 ∧ utf8IsCont b3 ∧
    0x10000 ≤ utf8Val4 b b1 b2 b3 ∧ utf8Val4 b b1 b2 b3 < 0x110000

instance (b b1 b2 b3 : Nat) : Decidable (utf8Ok4 b b1 b2 b3) := by
  unfold utf8Ok4; infer_instance

/-- One step of strict UTF-8 decoding: the scalar encoded at the head of
the byte string and the remaining bytes, or `none` for a malformed,
overlong, surrogate or out-of-range sequence. -/
def utf8DecodeOne : PyBytes → Option (Nat × PyBytes)
  | [] => none
  | b :: rest =>
    if b < 0x80 then some (b, rest)
    else if b < 0xC2 then none
    else if b < 0xE0 then
      if 1 ≤ rest.length ∧ utf8IsCont (rest.getD 0 0) then
        some (utf8Val2 b (rest.getD 0 0), rest.drop 1)
      else none
    else if b < 0xF0 then
      if 2 ≤ rest.length ∧ utf8Ok3 b (rest.getD 0 0) (rest.getD 1 0) then
        some (utf8Val3 b (rest.getD 0 0) (rest.getD 1 0), rest.drop 2)
      else none
    else if b < 0xF5 then
      if 3 ≤ rest.length ∧ utf8Ok4 b (rest.getD 0 0) (rest.getD 1 0) (rest.getD 2 0) then
        some (utf8Val4 b (rest.getD 0 0) (rest.getD 1 0) (rest.getD 2 0), rest.drop 3)
      else none
    else none

/-- Strict UTF-8 decoding, one scalar per fuel step. -/
def utf8DecodeF : Nat → PyBytes → Option PyStr
  | _, [] => some []
  | 0, _ :: _ => none
  | fuel + 1, b :: rest =>
    match utf8DecodeOne (b :: rest) with
    | none => none
    | some (c, r) => (utf8DecodeF fuel r).map (c :: ·)

/-- Python `bytes.decode('utf-8')` (strict): rejects malformed sequences,
overlong encodings, surrogates and out-of-range values.  The fuel, bounded
by the length, covers every step since each consumes at least one byte. -/
def utf8Decode (bs : PyBytes) : Option PyStr := utf8DecodeF bs.length bs

/-- Total UTF-8 decoding with U+FFFD replacement, modelling the
`errors='replace'` decoder that `urllib.parse.unquote` uses (an invalid lead
byte is replaced and skipped; a truncated sequence is replaced). -/
def utf8DecodeReplaceF : Nat → PyBytes → PyStr
  | _, [] => []
  | 0, _ :: _ => []
  | fuel + 1, b :: rest =>
    if b < 0x80 then b :: utf8DecodeReplaceF fuel rest
    else if b < 0xC2 then 0xFFFD :: utf8DecodeReplaceF fuel rest
    else if b < 0xE0 then
      match rest with
      | b1 :: r =>
        if utf8Cont b1 then ((b - 0xC0) * 64 + (b1 - 0x80)) :: utf8DecodeReplaceF fuel r
        else 0xFFFD :: utf8DecodeReplaceF fuel (b1 :: r)
      | [] => [0xFFFD]
    else if b < 0xF0 then
      match rest with
      | b1 :: b2 :: r =>
        if utf8Cont b1 && utf8Cont b2 then
          let c := (b - 0xE0) * 4096 + (b1 - 0x80) * 64 + (b2 - 0x80)
          if 0x800 ≤ c ∧ ¬(0xD800 ≤ c ∧ c < 0xE000) then c :: utf8DecodeReplaceF fuel r
          else 0xFFFD :: utf8DecodeReplaceF fuel (b1 :: b2 :: r)
        else 0xFFFD :: utf8DecodeReplaceF fuel (b1 :: b2 :: r)
      | t => 0xFFFD :: utf8DecodeReplaceF fuel t
    else if b < 0xF5 then
      match rest with
      | b1 :: b2 :: b3 :: r =>
        if utf8Cont b1 && utf8Cont b2 && utf8Cont b3 then
          let c := (b - 0xF0) * 262144 + (b1 - 0x80) * 4096 + (b2 - 0x80) * 64 + (b3 - 0x80)
          if 0x10000 ≤ c ∧ c < 0x110000 then c :: utf8DecodeReplaceF fuel r
          else 0xFFFD :: utf8DecodeReplaceF fuel (b1 :: b2 :: b3 :: r)
        else 0xFFFD :: utf8DecodeReplaceF fuel (b1 :: b2 :: b3 :: r)
      | t => 0xFFFD :: utf8DecodeReplaceF fuel t
    else 0xFFFD :: utf8DecodeReplaceF fuel rest

/-- Total UTF-8 decoding with replacement; the fuel, bounded by the length,
covers every step since each consumes at least one byte. -/
def utf8DecodeReplace (bs : PyBytes) : PyStr := utf8DecodeReplaceF bs.length bs


/-- Base64 alphabet: the character for a 6-bit value. -/
def b64chr (n : Nat) : Nat :=
  if n < 26 then 65 + n
  else if n < 52 then 97 + (n - 26)
  else if n < 62 then 48 + (n - 52)
  else if n = 62 then 43 else 47

/-- Inverse of the base64 alphabet. -/
def b64idx (c : Nat) : Option Nat :=
  if 65 ≤ c ∧ c ≤ 90 then some (c - 65)
  else if 97 ≤ c ∧ c ≤ 122 then some (26 + (c - 97))
  else if 48 ≤ c ∧ c ≤ 57 then some (52 + (c - 48))
  else if c = 43 then some 62
  else if c = 47 then some 63
  else none

/-- Python `base64.b64encode(..).decode()`: standard base64 with `=` padding.
The result is ASCII, so the same list serves as the `PyStr` it is decoded to. -/
def b64encode : PyBytes → PyStr
  | a :: b :: c :: rest =>
    b64chr (a / 4) :: b64chr (a % 4 * 16 + b / 16) ::
    b64chr (b % 16 * 4 + c / 64) :: b64chr (c % 64) :: b64encode rest
  | [a, b] => [b64chr (a / 4), b64chr (a % 4 * 16 + b / 16), b64chr (b % 16 * 4), 61]
  | [a] => [b64chr (a / 4), b64chr (a % 4 * 16), 61, 61]
  | [] => []

/-- Python `base64.b64decode` on input over the base64 alphabet with proper
`=` padding; other inputs (which the fallback scheme never produces) are
rejected, standing in for the `binascii.Error` the library raises. -/
def b64decode : PyStr → Option PyBytes
  | [] => some []
  | c1 :: c2 :: c3 :: c4 :: rest =>
    (b64idx c1).bind fun w =>
      (b64idx c2).bind fun x =>
        if c3 = 61 ∧ c4 = 61 ∧ rest = [] then some [w * 4 + x / 16]
        else
          (b64idx c3).bind fun y =>
            if c4 = 61 ∧ rest = [] then some [w * 4 + x / 16, x % 16 * 16 + y / 4]
            else
              (b64idx c4).bind fun z =>
                (b64decode rest).map
                  ((w * 4 + x / 16) :: (x % 16 * 16 + y / 4) :: (y % 4 * 64 + z) :: ·)
  | _ => none

/-- Keystream XOR from the source's comprehension
`bytes([b ^ key[i % len(key)] for i, b in enumerate(data)])`, with `i` the
running index. -/
def xorKSFrom (key : PyBytes) (i : Nat) : PyBytes → PyBytes
  | [] => []
  | b :: rest => (b ^^^ key.getD (i % key.length) 0) :: xorKSFrom key (i + 1) rest

/-- XOR of a byte string against the repeating keystream `key`. -/
def xorKeystream (key data : PyBytes) : PyBytes := xorKSFrom key 0 data

/-- SHA-256 round constants (FIPS 180-4). -/
def shaK : List Nat :=
  [1116352408, 1899447441, 3049323471, 3921009573, 961987163, 1508970993,
   2453635748, 2870763221, 3624381080, 310598401, 607225278, 1426881987,
   1925078388, 2162078206, 2614888103, 3248222580, 3835390401, 4022224774,
   264347078, 604807628, 770255983, 1249150122, 1555081692, 1996064986,
   2554220882, 2821834349, 2952996808, 3210313671, 3336571891, 3584528711,
   113926993, 338241895, 666307205, 773529912, 1294757372, 1396182291,
   1695183700, 1986661051, 2177026350, 2456956037, 2730485921, 2820302411,
   3259730800, 3345764771, 3516065817, 3600352804, 4094571909, 275423344,
   430227734, 506948616, 659060556, 883997877, 958139571, 1322822218,
   1537002063, 1747873779, 1955562222, 2024104815, 2227730452, 2361852424,
   2428436474, 2756734187, 3204031479, 3329325298]

/-- SHA-256 initial hash value (FIPS 180-4). -/
def shaH0 : List Nat :=
  [1779033703, 3144134277, 1013904242, 2773480762,
   1359893119, 2600822924, 528734635, 1541459225]

/-- Right rotation of a 32-bit word. -/
def rotr32 (n w : Nat) : Nat := (w >>> n) ||| ((w % (2 ^ n)) <<< (32 - n))

/-- SHA-256 message-schedule extension, one word per fuel step. -/
def shaExtendN : Nat → List Nat → List Nat
  | 0, w => w
  | fuel + 1, w =>
    let i := w.length
    let s0 := rotr32 7 (w.getD (i - 15) 0) ^^^ rotr32 18 (w.getD (i - 15) 0) ^^^ (w.getD (i - 15) 0 >>> 3)
    let s1 := rotr32 17 (w.getD (i - 2) 0) ^^^ rotr32 19 (w.getD (i - 2) 0) ^^^ (w.getD (i - 2) 0 >>> 10)
    shaExtendN fuel (w ++ [(w.getD (i - 16) 0 + s0 + w.getD (i - 7) 0 + s1) % 2 ^ 32])

/-- SHA-256 message-schedule extension of the 16 block words to 64 words. -/
def shaExtend (w : List Nat) : List Nat := shaExtendN (64 - w.length) w

/-- One SHA-256 compression round. -/
def shaRound (st : List Nat) (kw : Nat × Nat) : List Nat :=
  match st with
  | [a, b, c, d, e, f, g, h] =>
    let S1 := rotr32 6 e ^^^ rotr32 11 e ^^^ rotr32 25 e
    let ch := (e &&& f) ^^^ ((e ^^^ 0xFFFFFFFF) &&& g)
    let t1 := (h + S1 + ch + kw.1 + kw.2) % 2 ^ 32
    let S0 := rotr32 2 a ^^^ rotr32 13 a ^^^ rotr32 22 a
    let mj := (a &&& b) ^^^ (a &&& c) ^^^ (b &&& c)
    let t2 := (S0 + mj) % 2 ^ 32
    [(t1 + t2) % 2 ^ 32, a, b, c, (d + t1) % 2 ^ 32, e, f, g]
  | st => st

/-- Big-endian 32-bit words from a list of bytes. -/
def bytesToWords : PyBytes → List Nat
  | b0 :: b1 :: b2 :: b3 :: rest => (b0 * 16777216 + b1 * 65536 + b2 * 256 + b3) :: bytesToWords rest
  | _ => []

/-- Big-endian bytes of one 32-bit word. -/
def wordBytes (w : Nat) : PyBytes :=
  [w / 16777216 % 256, w / 65536 % 256, w / 256 % 256, w % 256]

/-- SHA-256 compression of one 64-byte block into the running hash. -/
def shaBlock (hsh : List Nat) (block : PyBytes) : List Nat :=
  let w := shaExtend (bytesToWords block)
  let st := (shaK.zip w).foldl shaRound hsh
  (hsh.zip st).map (fun p => (p.1 + p.2) % 2 ^ 32)

/-- Splits a list into 64-byte chunks, one chunk per fuel step. -/
def chunks64F : Nat → PyBytes → List PyBytes
  | _, [] => []
  | 0, _ :: _ => []
  | fuel + 1, b :: l => (b :: l).take 64 :: chunks64F fuel ((b :: l).drop 64)

/-- Splits a list into 64-byte chunks; the fuel, bounded by the length,
covers every step since each consumes at least one byte. -/
def chunks64 (l : PyBytes) : List PyBytes := chunks64F l.length l

/-- SHA-256 padding: `0x80`, zeros, then the 8-byte big-endian bit length. -/
def shaPad (msg : PyBytes) : PyBytes :=
  let r := (msg.length + 1) % 64
  let zeros := if r ≤ 56 then 56 - r else 56 + 64 - r
  let bits := msg.length * 8
  msg ++ [0x80] ++ List.replicate zeros 0 ++
    [bits / 2 ^ 56 % 256, bits / 2 ^ 48 % 256, bits / 2 ^ 40 % 256, bits / 2 ^ 32 % 256,
     bits / 2 ^ 24 % 256, bits / 2 ^ 16 % 256, bits / 2 ^ 8 % 256, bits % 256]

/-- Python `hashlib.sha256(data).digest()`: the 32-byte SHA-256 digest. -/
def sha256 (msg : PyBytes) : PyBytes :=
  ((chunks64 (shaPad msg)).foldl shaBlock shaH0).flatMap wordBytes

/-- AES S-box (FIPS 197), validated by the key-expansion/encryption test
vector theorem below. -/
def aesSbox : List Nat :=
  [0x63, 0x7c, 0x77, 0x7b, 0xf2, 0x6b, 0x6f, 0xc5, 0x30, 0x01, 0x67, 0x2b, 0xfe, 0xd7, 0xab, 0x76,
   0xca, 0x82, 0xc9, 0x7d, 0xfa, 0x59, 0x47, 0xf0, 0xad, 0xd4, 0xa2, 0xaf, 0x9c, 0xa4, 0x72, 0xc0,
   0xb7, 0xfd, 0x93, 0x26, 0x36, 0x3f, 0xf7, 0xcc, 0x34, 0xa5, 0xe5, 0xf1, 0x71, 0xd8, 0x31, 0x15,
   0x04, 0xc7, 0x23, 0xc3, 0x18, 0x96, 0x05, 0x9a, 0x07, 0x12, 0x80, 0xe2, 0xeb, 0x27, 0xb2, 0x75,
   0x09, 0x83, 0x2c, 0x1a, 0x1b, 0x6e, 0x5a, 0xa0, 0x52, 0x3b, 0xd6, 0xb3, 0x29, 0xe3, 0x2f, 0x84,
   0x53, 0xd1, 0x00, 0xed, 0x20, 0xfc, 0xb1, 0x5b, 0x6a, 0xcb, 0xbe, 0x39, 0x4a, 0x4c, 0x58, 0xcf,
   0xd0, 0xef, 0xaa, 0xfb, 0x43, 0x4d, 0x33, 0x85, 0x45, 0xf9, 0x02, 0x7f, 0x50, 0x3c, 0x9f, 0xa8,
   0x51, 0xa3, 0x40, 0x8f, 0x92, 0x9d, 0x38, 0xf5, 0xbc, 0xb6, 0xda, 0x21, 0x10, 0xff, 0xf3, 0xd2,
   0xcd, 0x0c, 0x13, 0xec, 0x5f, 0x97, 0x44, 0x17, 0xc4, 0xa7, 0x7e, 0x3d, 0x64, 0x5d, 0x19, 0x73,
   0x60, 0x81, 0x4f, 0xdc, 0x22, 0x2a, 0x90, 0x88, 0x46, 0xee, 0xb8, 0x14, 0xde, 0x5e, 0x0b, 0xdb,
   0xe0, 0x32, 0x3a, 0x0a, 0x49, 0x06, 0x24, 0x5c, 0xc2, 0xd3, 0xac, 0x62, 0x91, 0x95, 0xe4, 0x79,
   0xe7, 0xc8, 0x37, 0x6d, 0x8d, 0xd5, 0x4e, 0xa9, 0x6c, 0x56, 0xf4, 0xea, 0x65, 0x7a, 0xae, 0x08,
   0xba, 0x78, 0x25, 0x2e, 0x1c, 0xa6, 0xb4, 0xc6, 0xe8, 0xdd, 0x74, 0x1f, 0x4b, 0xbd, 0x8b, 0x8a,
   0x70, 0x3e, 0xb5, 0x66, 0x48, 0x03, 0xf6, 0x0e, 0x61, 0x35, 0x57, 0xb9, 0x86, 0xc1, 0x1d, 0x9e,
   0xe1, 0xf8, 0x98, 0x11, 0x69, 0xd9, 0x8e, 0x94, 0x9b, 0x1e, 0x87, 0xe9, 0xce, 0x55, 0x28, 0xdf,
   0x8c, 0xa1, 0x89, 0x0d, 0xbf, 0xe6, 0x42, 0x68, 0x41, 0x99, 0x2d, 0x0f, 0xb0, 0x54, 0xbb, 0x16]

/-- S-box lookup on a byte. -/
def sb (b : Nat) : Nat := aesSbox.getD b 0

/-- AES round constants for key expansion, as 32-bit words. -/
def aesRcon : List Nat :=
  [0x01000000, 0x02000000, 0x04000000, 0x08000000, 0x10000000,
   0x20000000, 0x40000000, 0x80000000, 0x1B000000, 0x36000000]

/-- SubWord of the AES key expansion: S-box on each byte of a word. -/
def subWord (w : Nat) : Nat :=
  sb (w >>> 24) * 16777216 + sb (w >>> 16 &&& 255) * 65536 + sb (w >>> 8 &&& 255) * 256 + sb (w &&& 255)

/-- RotWord of the AES key expansion: rotate a word left by one byte. -/
def rotWord (w : Nat) : Nat := (w &&& 0xFFFFFF) * 256 + (w >>> 24)

/-- AES key expansion (FIPS 197, any of the three key sizes), one word per
fuel step, from the initial `Nk` key words. -/
def aesExpandN (nk : Nat) : Nat → List Nat → List Nat
  | 0, w => w
  | fuel + 1, w =>
    let i := w.length
    let tp := w.getLastD 0
    let tp :=
      if i % nk = 0 then subWord (rotWord tp) ^^^ aesRcon.getD (i / nk - 1) 0
      else if 6 < nk ∧ i % nk = 4 then subWord tp
      else tp
    aesExpandN nk fuel (w ++ [w.getD (i - nk) 0 ^^^ tp])

/-- AES key expansion up to `total` words. -/
def aesExpand (nk total : Nat) (w : List Nat) : List Nat :=
  aesExpandN nk (total - w.length) w

/-- AddRoundKey: XOR the 16-byte state with one round key (four words). -/
def ark (st : PyBytes) (rk : List Nat) : PyBytes :=
  (List.range 16).map (fun i => st.getD i 0 ^^^ (rk.getD (i / 4) 0 >>> (24 - 8 * (i % 4)) &&& 255))

/-- ShiftRows on the flat, column-major 16-byte state. -/
def shiftRows (st : PyBytes) : PyBytes :=
  [0, 5, 10, 15, 4, 9, 14, 3, 8, 13, 2, 7, 12, 1, 6, 11].map (fun i => st.getD i 0)

/-- Multiplication by x in GF(2^8) with the AES reduction polynomial. -/
def xt (b : Nat) : Nat := if b < 128 then b * 2 else (b * 2) ^^^ 0x11B

/-- MixColumns on the flat 16-byte state, one 4-byte column at a time. -/
def mixCols : PyBytes → PyBytes
  | a :: b :: c :: d :: rest =>
    (xt a ^^^ (xt b ^^^ b) ^^^ c ^^^ d) ::
    (a ^^^ xt b ^^^ (xt c ^^^ c) ^^^ d) ::
    (a ^^^ b ^^^ xt c ^^^ (xt d ^^^ d)) ::
    ((xt a ^^^ a) ^^^ b ^^^ c ^^^ xt d) :: mixCols rest
  | l => l

/-- AES block encryption (any of the three key sizes) of a 16-byte block. -/
def aesEncryptBlock (key block : PyBytes) : PyBytes :=
  let nk := key.length / 4
  let nr := nk + 6
  let w := aesExpand nk (4 * (nr + 1)) (bytesToWords key)
  let st := ark block (w.take 4)
  let st := (List.range (nr - 1)).foldl
    (fun s r => ark (mixCols (shiftRows (s.map sb))) ((w.drop (4 * (r + 1))).take 4)) st
  ark (shiftRows (st.map sb)) ((w.drop (4 * nr)).take 4)

/-- Big-endian natural from a list of bytes. -/
def bytesToNat (bs : PyBytes) : Nat := bs.foldl (fun acc b => acc * 256 + b) 0

/-- Big-endian 16-byte encoding of a 128-bit natural. -/
def natToBytes16 (n : Nat) : PyBytes :=
  (List.range 16).map (fun i => n >>> (8 * (15 - i)) &&& 255)

/-- Big-endian 8-byte encoding of a 64-bit natural. -/
def natToBytes8 (n : Nat) : PyBytes :=
  (List.range 8).map (fun i => n >>> (8 * (7 - i)) &&& 255)

/-- Multiplication in GF(2^128) with the GCM bit ordering (NIST SP 800-38D,
algorithm with the reduction constant R = 0xE1 followed by 120 zero bits). -/
def gmul (x y : Nat) : Nat :=
  ((List.range 128).foldl
    (fun zv i =>
      let z := if x >>> (127 - i) &&& 1 = 1 then zv.1 ^^^ zv.2 else zv.1
      let v := if zv.2 &&& 1 = 1 then (zv.2 >>> 1) ^^^ (0xE1 <<< 120) else zv.2 >>> 1
      (z, v))
    ((0 : Nat), y)).1

/-- Splits a list into 16-byte chunks (the last may be short), one chunk per
fuel step. -/
def chunks16F : Nat → PyBytes → List PyBytes
  | _, [] => []
  | 0, _ :: _ => []
  | fuel + 1, b :: l => ((b :: l).take 16) :: chunks16F fuel ((b :: l).drop 16)

/-- Splits a list into 16-byte chunks; the fuel, bounded by the length,
covers every step since each consumes at least one byte. -/
def chunks16 (l : PyBytes) : List PyBytes := chunks16F l.length l

/-- GHASH of a byte string (whose length must be a multiple of 16) under the
hash subkey `h`. -/
def ghash (h : Nat) (data : PyBytes) : Nat :=
  (chunks16 data).foldl (fun y blk => gmul (y ^^^ bytesToNat blk) h) 0

/-- Zero padding of a byte string up to the next 16-byte boundary. -/
def pad16 (l : PyBytes) : PyBytes := l ++ List.replicate ((16 - l.length % 16) % 16) 0

/-- Incrementing the low 32 bits of a 128-bit counter block. -/
def inc32 (n : Nat) : Nat := (n >>> 32) <<< 32 ||| ((n + 1) &&& 0xFFFFFFFF)

/-- XOR of two byte strings, truncated to the shorter one. -/
def zipXor (a b : PyBytes) : PyBytes := (a.zip b).map (fun p => p.1 ^^^ p.2)

/-- GCM counter mode, one block per fuel step. -/
def gctrF (key : PyBytes) : Nat → Nat → PyBytes → PyBytes
  | _, _, [] => []
  | 0, _, _ :: _ => []
  | fuel + 1, cb, b :: l =>
    zipXor ((b :: l).take 16) (aesEncryptBlock key (natToBytes16 cb)) ++
      gctrF key fuel (inc32 cb) ((b :: l).drop 16)

/-- GCM counter mode: encrypt/decrypt `data` with successive counter blocks
starting at `cb`; the fuel, bounded by the length, covers every step. -/
def gctr (key : PyBytes) (cb : Nat) (data : PyBytes) : PyBytes :=
  gctrF key data.length cb data

/-- Initial counter block J0 of GCM: either the 12-byte IV with a one
appended, or the GHASH of the padded IV for other IV lengths. -/
def gcmJ0 (h : Nat) (iv : PyBytes) : Nat :=
  if iv.length = 12 then bytesToNat (iv ++ [0, 0, 0, 1])
  else ghash h (pad16 iv ++ natToBytes8 0 ++ natToBytes8 (8 * iv.length))

/-- GCM authentication tag over a ciphertext (no associated data). -/
def gcmTag (key : PyBytes) (iv ct : PyBytes) : PyBytes :=
  let h := bytesToNat (aesEncryptBlock key (List.replicate 16 0))
  let j0 := gcmJ0 h iv
  let s := ghash h (pad16 ct ++ natToBytes8 0 ++ natToBytes8 (8 * ct.length))
  natToBytes16 (bytesToNat (aesEncryptBlock key (natToBytes16 j0)) ^^^ s)

/-- AES-GCM encryption (no associated data): ciphertext and 16-byte tag. -/
def aesGcmEncrypt (key iv pt : PyBytes) : PyBytes × PyBytes :=
  let h := bytesToNat (aesEncryptBlock key (List.replicate 16 0))
  let ct := gctr key (inc32 (gcmJ0 h iv)) pt
  (ct, gcmTag key iv ct)

/-- AES-GCM decryption as performed by the `cryptography` library call in the
source: the key must be an AES key size, the IV nonempty, the tag exactly 16
bytes (the library's default minimum tag length); decryption recomputes the
tag over the ciphertext and fails on mismatch. -/
def aesGcmDecrypt (key iv ct tag : PyBytes) : Option PyBytes :=
  if (key.length = 16 ∨ key.length = 24 ∨ key.length = 32) ∧ 1 ≤ iv.length ∧ tag.length = 16 then
    if tag = gcmTag key iv ct then
      some (gctr key (inc32 (gcmJ0 (bytesToNat (aesEncryptBlock key (List.replicate 16 0))) iv)) ct)
    else none
  else none

/-- Value of a hexadecimal digit character, if it is one. -/
def hexVal (c : Nat) : Option Nat :=
  if 48 ≤ c ∧ c ≤ 57 then some (c - 48)
  else if 65 ≤ c ∧ c ≤ 70 then some (c - 55)
  else if 97 ≤ c ∧ c ≤ 102 then some (c - 87)
  else none

/-- Worker for percent decoding: `acc` holds the bytes of the current run of
valid `%XX` escapes, which is decoded (with replacement) as one UTF-8
sequence when the run ends. -/
def pyUnquoteAux (acc : PyBytes) : PyStr → PyStr
  | [] => utf8DecodeReplace acc
  | 37 :: h1 :: h2 :: rest =>
    match hexVal h1, hexVal h2 with
    | some a, some b => pyUnquoteAux (acc ++ [a * 16 + b]) rest
    | _, _ => utf8DecodeReplace acc ++ 37 :: pyUnquoteAux [] (h1 :: h2 :: rest)
  | c :: rest => utf8DecodeReplace acc ++ c :: pyUnquoteAux [] rest

/-- Python `urllib.parse.unquote`: percent decoding, with runs of `%XX`
escapes decoded as UTF-8 using the replacement error handler. -/
def pyUnquote (s : PyStr) : PyStr := pyUnquoteAux [] s

/-- Configuration under which the helper script runs: whether the `keyring`
module imported, whether its storage backend raises (modelling the
`except` arm of `encrypt_cookie`), the stored credentials, and the
machine identity string `platform.node() + os.getlogin() + platform.system()`
used by the fallback scheme. -/
structure Env where
  keyringAvailable : Bool
  keyringWriteFails : Bool
  keyring : List ((PyStr × PyStr) × PyStr)
  machineId : PyStr

/-- Constant `SERVICE_NAME` of the source. -/
def SERVICE_NAME : PyStr := pstr "ShippingManagerCoPilot"

/-- Keyring lookup, modelling `keyring.get_password` (absent entry gives
`None`). -/
def krGet (kr : List ((PyStr × PyStr) × PyStr)) (service account : PyStr) : Option PyStr :=
  (kr.lookup (service, account)).map id

/-- Effects on the OS keyring, in order of execution. -/
inductive KrOp where
  | del (service account : PyStr)
  | set (service account value : PyStr)
deriving DecidableEq, Repr

/-- Applies one keyring operation to a keyring state (deleting an absent
entry is a no-op, as the source's `except PasswordDeleteError: pass` makes
it). -/
def krApply (kr : List ((PyStr × PyStr) × PyStr)) : KrOp → List ((PyStr × PyStr) × PyStr)
  | .del service account => kr.filter (fun e => ¬(e.1 = (service, account)))
  | .set service account value =>
    ((service, account), value) :: kr.filter (fun e => ¬(e.1 = (service, account)))

/-- Applies a list of keyring operations left to right. -/
def krRun (kr : List ((PyStr × PyStr) × PyStr)) (ops : List KrOp) : List ((PyStr × PyStr) × PyStr) :=
  ops.foldl krApply kr

/-- Fallback branch of `encrypt_cookie` (lines 114-127): SHA-256 of the
machine identity as keystream, XOR, base64, `v1:` prefix; any failure inside
the `try` (`str.encode` raising on an invalid code point) falls through to
returning the plaintext cookie itself. -/
def fallback_encrypt (machineId cookie : PyStr) : PyStr :=
  match utf8Encode machineId with
  | none => cookie
  | some midBytes =>
    match utf8Encode cookie with
    | none => cookie
    | some cookieBytes =>
      pstr "v1:" ++ b64encode (xorKeystream (sha256 midBytes) cookieBytes)

/-- Translation of `encrypt_cookie(cookie, user_id)` (lines 93-127).  The
first component is the returned string; the second is the list of keyring
operations performed.  The keyring path runs only when the module is
available and the backend does not raise; otherwise the fallback scheme
runs. -/
def encrypt_cookie (env : Env) (cookie user_id : PyStr) : PyStr × List KrOp :=
  let account_name := pstr "session_" ++ user_id
  if env.keyringAvailable then
    if env.keyringWriteFails then
      (fallback_encrypt env.machineId cookie, [KrOp.del SERVICE_NAME account_name])
    else
      (pstr "KEYRING:" ++ account_name,
       [KrOp.del SERVICE_NAME account_name, KrOp.set SERVICE_NAME account_name cookie])
  else
    (fallback_encrypt env.machineId cookie, [])

/-- Fallback branch of `decrypt_cookie` (lines 149-160): base64 decode after
the `v1:` prefix, XOR with the machine-derived keystream, UTF-8 decode; any
failure gives `None`. -/
def fallback_decrypt (machineId data : PyStr) : Option PyStr :=
  match utf8Encode machineId with
  | none => none
  | some midBytes =>
    match b64decode (data.drop 3) with
    | none => none
    | some encBytes => utf8Decode (xorKeystream (sha256 midBytes) encBytes)

/-- Translation of `decrypt_cookie(encrypted_data, user_id)` (lines
129-164): empty data gives `None`; a `KEYRING:` tag is looked up in the OS
keyring (`None` when the module is unavailable); a `v1:` tag runs the
fallback scheme; anything else is returned unchanged as legacy plaintext. -/
def decrypt_cookie (env : Env) (encrypted_data : PyStr) : Option PyStr :=
  if encrypted_data = [] then none
  else if pyStartsWith (pstr "KEYRING:") encrypted_data then
    if env.keyringAvailable then krGet env.keyring SERVICE_NAME (encrypted_data.drop 8)
    else none
  else if pyStartsWith (pstr "v1:") encrypted_data then
    fallback_decrypt env.machineId encrypted_data
  else some encrypted_data

/-- Translation of `is_encrypted(data)` (lines 166-170) for string data. -/
def is_encrypted (data : PyStr) : Bool :=
  ¬(data = []) && (pyStartsWith (pstr "KEYRING:") data || pyStartsWith (pstr "v1:") data)

/-- Record stored per user id in sessions.json. -/
structure SessionRecord where
  cookie : PyStr
  timestamp : Nat
  company_name : PyStr
  login_method : PyStr
deriving DecidableEq, Repr

/-- The session store: the flat JSON mapping of user id to record, with
Python-dict update semantics (insertion order kept, existing key
overwritten in place). -/
abbrev Sessions := List (PyStr × SessionRecord)

/-- Python `sessions[str(user_id)] = record`. -/
def setSession : Sessions → PyStr → SessionRecord → Sessions
  | [], uid, rec => [(uid, rec)]
  | (k, r) :: rest, uid, rec =>
    if k = uid then (uid, rec) :: rest else (k, r) :: setSession rest uid rec

/-- Python `sessions.get(uid)`: first binding of the key. -/
def getSession : Sessions → PyStr → Option SessionRecord
  | [], _ => none
  | (k, r) :: rest, uid => if k = uid then some r else getSession rest uid

/-- Translation of the data transformation of `save_session(user_id, cookie,
company_name, login_method)` (lines 187-211): encrypt the cookie, then write
the record under the user id into the mapping loaded from disk.  `sessions`
is the mapping `load_sessions()` returned and `now` the value of
`int(time.time())`; the pair also carries the keyring operations the
encryption performed. -/
def save_session (env : Env) (sessions : Sessions) (user_id cookie company_name login_method : PyStr)
    (now : Nat) : Sessions × List KrOp :=
  let ec := encrypt_cookie env cookie user_id
  (setSession sessions user_id
    { cookie := ec.1, timestamp := now, company_name := company_name, login_method := login_method },
   ec.2)

/-- Translation of `decrypt_aes_gcm(encrypted_value, key)` (lines 579-594),
with Python's slicing semantics: drop the 3-byte version prefix, the next 12
bytes are the nonce, the last 16 bytes the tag, the middle the ciphertext;
AES-GCM-decrypt and decode as UTF-8.  Any exception (tag mismatch, invalid
sizes, bad UTF-8) gives `None`. -/
def decrypt_aes_gcm (encrypted_value key : PyBytes) : Option PyStr :=
  let evb := encrypted_value.drop 3
  let nonce := evb.take 12
  let cwt := evb.drop 12
  let tag := cwt.drop (cwt.length - 16)
  let ciphertext := cwt.take (cwt.length - 16)
  (aesGcmDecrypt key nonce ciphertext tag).bind utf8Decode

/-- Loop body of `get_steam_cookie` over the cookie rows (lines 633-641):
rows whose value fails to decrypt are skipped; a decrypted row is returned
when the name matches the target and the percent-decoded, stripped token is
non-empty. -/
def scanCookieRows (key : PyBytes) (target : PyStr) : List (PyStr × PyBytes) → Option PyStr
  | [] => none
  | (name, encrypted_value) :: rest =>
    match decrypt_aes_gcm encrypted_value key with
    | none => scanCookieRows key target rest
    | some payload =>
      let final_token := pyStrip (pyUnquote payload)
      if name = target ∧ final_token ≠ [] then some final_token
      else scanCookieRows key target rest

/-- Translation of the unlocked-database path of
`get_steam_cookie(db_path, prefs_path, domain, target_name)` (lines
615-644): `aes_key` is what `get_aes_key` returned (`None` aborts the whole
attempt before the database is read), `rows` the result of the cookie
query (an empty result also aborts). -/
def get_steam_cookie (aes_key : Option PyBytes) (rows : List (PyStr × PyBytes))
    (target_name : PyStr) : Option PyStr :=
  match aes_key with
  | none => none
  | some key => if rows = [] then none else scanCookieRows key target_name rows

/-- Minimal JSON value model for the bodies the two validators inspect. -/
inductive JValue where
  | null
  | bool (b : Bool)
  | num (n : Int)
  | str (s : PyStr)
  | arr (xs : List JValue)
  | obj (m : List (PyStr × JValue))

mutual
/-- Structural equality on JSON values (used only to model Python `in` on a
JSON array). -/
def jbeq : JValue → JValue → Bool
  | .null, .null => true
  | .bool a, .bool b => a == b
  | .num a, .num b => a == b
  | .str a, .str b => a == b
  | .arr a, .arr b => jbeqList a b
  | .obj a, .obj b => jbeqObj a b
  | _, _ => false
/-- Elementwise structural equality on JSON arrays. -/
def jbeqList : List JValue → List JValue → Bool
  | [], [] => true
  | x :: xs, y :: ys => jbeq x y && jbeqList xs ys
  | _, _ => false
/-- Bindingwise structural equality on JSON objects. -/
def jbeqObj : List (PyStr × JValue) → List (PyStr × JValue) → Bool
  | [], [] => true
  | (k, v) :: xs, (l, w) :: ys => k == l && jbeq v w && jbeqObj xs ys
  | _, _ => false
end

/-- Python truthiness of a JSON value. -/
def jtruthy : JValue → Bool
  | .null => false
  | .bool b => b
  | .num n => n ≠ 0
  | .str s => !s.isEmpty
  | .arr xs => !xs.isEmpty
  | .obj m => !m.isEmpty

/-- First binding of a key in a JSON object body. -/
def jlookup : List (PyStr × JValue) → PyStr → Option JValue
  | [], _ => none
  | (k, v) :: rest, key => if k = key then some v else jlookup rest key

/-- Python `key in value`: key membership for a dict, element membership for
a list, substring test for a string; a `TypeError` (modelled as `none`) for
anything else. -/
def pyContains (needle : PyStr) : JValue → Option Bool
  | .obj m => some (m.any (fun e => e.1 == needle))
  | .arr xs => some (xs.any (fun x => jbeq x (.str needle)))
  | .str s => some ((s.tails).any (fun t => pyStartsWith needle t))
  | _ => none

/-- Python `value.get(key)`: only a dict has `.get`; anything else raises
an `AttributeError` (modelled as `none` on the outside). -/
def pyGet : JValue → PyStr → Option (Option JValue)
  | .obj m, key => some (jlookup m key)
  | _, _ => none

/-- Outcome of the `requests.post` call in `validate_session_cookie`: either
an exception (connection error, timeout, and the like), or a response with a
status code and a body that may or may not parse as JSON. -/
inductive ReqOutcome where
  | exc
  | resp (status : Nat) (body : Option JValue)

/-- Well-formedness test of lines 247-249: `data.get('user', {}).get('id')`
must be truthy, which requires the body to be a JSON object whose `user`
field is an object with a truthy `id`; the user object is returned.  A
non-dict body or user raises `AttributeError` inside the `try` (`none`
here). -/
def extractUser (data : JValue) : Option JValue :=
  match pyGet data (pstr "user") with
  | none => none
  | some userOpt =>
    match pyGet (userOpt.getD (.obj [])) (pstr "id") with
    | none => none
    | some idOpt =>
      if jtruthy (idOpt.getD .null) then some (userOpt.getD (.obj [])) else none

/-- Translation of `validate_session_cookie(cookie, user_id)` (lines
219-253).  The decryption pre-step mirrors lines 226-233; `outcome` is what
the HTTP call against the user-settings endpoint produces.  Every failure
path returns `none` ("expired"); the function is total, so no exception
escapes to the caller. -/
def validate_session_cookie (env : Env) (cookie : PyStr) (user_id : Option PyStr)
    (outcome : ReqOutcome) : Option JValue :=
  let c? : Option PyStr :=
    if is_encrypted cookie then
      if user_id.getD [] = [] then none
      else
        match decrypt_cookie env cookie with
        | none => none
        | some c => if c = [] then none else some c
    else some cookie
  match c? with
  | none => none
  | some _ =>
    match outcome with
    | .exc => none
    | .resp status body =>
      if status = 200 then
        match body with
        | none => none
        | some data => extractUser data
      else none

/-- Content of an archive entry as seen by
`zipf.read(name).decode('utf-8')` followed by `json.loads`: the raw bytes
either are not UTF-8, or are not JSON, or parse to a JSON value. -/
inductive MetaParse where
  | notUtf8
  | notJson
  | parsed (v : JValue)

/-- A backup archive as `zipfile.ZipFile` exposes it: unreadable, or a list
of named entries. -/
inductive ZipArchive where
  | badZip
  | zip (entries : List (PyStr × MetaParse))

/-- Result of `validate_backup`: `(True, metadata)` or `(False, message)`. -/
inductive VBResult where
  | acc (metadata : JValue)
  | rej (msg : PyStr)

/-- Message of `str(e)` for the exceptions reaching the generic `except`
arm of `validate_backup` (decode errors and attribute/type errors from
non-dict metadata); the exact Python text is abbreviated, the structure
`False, "Invalid backup: " + str(e)` is what matters. -/
def pyExcMsg (kind : Nat) : PyStr := pstr "Invalid backup: " ++ [48 + kind % 10]

/-- Python list comprehension `[f for f in required_fields if f not in
metadata]`, propagating a `TypeError` from `in` on a non-container. -/
def missingFields (metadata : JValue) : List PyStr → Option (List PyStr)
  | [] => some []
  | f :: rest =>
    match pyContains f metadata with
    | none => none
    | some present =>
      (missingFields metadata rest).map (fun ms => if present then ms else f :: ms)

/-- Python `", ".join(fields)`. -/
def joinComma : List PyStr → PyStr
  | [] => []
  | [f] => f
  | f :: rest => f ++ pstr ", " ++ joinComma rest

/-- Entry-name test of line 2167: some entry name contains `userdata/` as a
substring (Python `'userdata/' in name`). -/
def vbHasUserdata (entries : List (PyStr × MetaParse)) : Bool :=
  entries.any (fun e => (e.1.tails).any (fun t => pyStartsWith (pstr "userdata/") t))

/-- Required metadata fields of line 2157. -/
def vbRequired : List PyStr := [pstr "version", pstr "created", pstr "source"]

/-- Lines 2163-2171 of `validate_backup`: the source tag and the userdata
entry check, then acceptance. -/
def vbCheckSource (entries : List (PyStr × MetaParse)) (metadata : JValue) : VBResult :=
  match pyGet metadata (pstr "source") with
  | none => .rej (pyExcMsg 3)
  | some src =>
    if ¬(jbeq (src.getD .null) (.str (pstr "ShippingManagerCoPilot"))) then
      .rej (pstr "Invalid backup: not a ShippingManagerCoPilot backup")
    else if ¬vbHasUserdata entries then .rej (pstr "Invalid backup: no userdata folder found")
    else .acc metadata

/-- Lines 2156-2161 of `validate_backup`: the required-fields check. -/
def vbCheckFields (entries : List (PyStr × MetaParse)) (metadata : JValue) : VBResult :=
  match missingFields metadata vbRequired with
  | none => .rej (pyExcMsg 2)
  | some missing =>
    if missing ≠ [] then
      .rej (pstr "Invalid backup: missing metadata fields: " ++ joinComma missing)
    else vbCheckSource entries metadata

/-- Lines 2153-2154 of `validate_backup`: reading and parsing the metadata
entry. -/
def vbCheckMeta (entries : List (PyStr × MetaParse)) : MetaParse → VBResult
  | .notUtf8 => .rej (pyExcMsg 1)
  | .notJson => .rej (pstr "Invalid backup: corrupted metadata")
  | .parsed metadata => vbCheckFields entries metadata

/-- Translation of `validate_backup(zip_path)` (src/start.py lines
2144-2178), staged exactly as the source checks run: a readable ZIP, a
`backup_metadata.json` entry whose body is UTF-8 JSON, the fields
`version`, `created`, `source` present, the source tag equal to
`ShippingManagerCoPilot`, and some entry name containing `userdata/`; every
failure is reported as `(False, message)` and every exception is caught. -/
def validate_backup (archive : ZipArchive) : VBResult :=
  match archive with
  | .badZip => .rej (pstr "Invalid backup: not a valid ZIP file")
  | .zip entries =>
    match entries.find? (fun e => e.1 == pstr "backup_metadata.json") with
    | none => .rej (pstr "Invalid backup: missing metadata file")
    | some (_, content) => vbCheckMeta entries content

/-!
Theorems.  First the validation of the reimplemented library primitives
against their published test vectors, then general lemmas, then one theorem
per specification claim.
-/

set_option maxRecDepth 100000

/-- Validation of the SHA-256 implementation against the FIPS 180-4 "abc"
test vector. -/
theorem sha256_matches_fips_vector :
    sha256 (pstr "abc") =
      [0xba, 0x78, 0x16, 0xbf, 0x8f, 0x01, 0xcf, 0xea, 0x41, 0x41, 0x40, 0xde, 0x5d, 0xae, 0x22, 0x23,
       0xb0, 0x03, 0x61, 0xa3, 0x96, 0x17, 0x7a, 0x9c, 0xb4, 0x10, 0xff, 0x61, 0xf2, 0x00, 0x15, 0xad] := by
  decide

/-- Validation of the AES-256 block cipher against the FIPS 197 appendix C.3
example vector. -/
theorem aes256_matches_fips_vector :
    aesEncryptBlock (List.range 32)
      [0x00, 0x11, 0x22, 0x33, 0x44, 0x55, 0x66, 0x77, 0x88, 0x99, 0xaa, 0xbb, 0xcc, 0xdd, 0xee, 0xff] =
      [0x8e, 0xa2, 0xb7, 0xca, 0x51, 0x67, 0x45, 0xbf, 0xea, 0xfc, 0x49, 0x90, 0x4b, 0x49, 0x60, 0x89] := by
  decide

/-- Validation of AES-256-GCM against test case 14 of the GCM specification
(all-zero 32-byte key, 12-byte IV and 16-byte plaintext). -/
theorem aes256gcm_matches_nist_vector :
    aesGcmEncrypt (List.replicate 32 0) (List.replicate 12 0) (List.replicate 16 0) =
      ([0xce, 0xa7, 0x40, 0x3d, 0x4d, 0x60, 0x6b, 0x6e, 0x07, 0x4e, 0xc5, 0xd3, 0xba, 0xf3, 0x9d, 0x18],
       [0xd0, 0xd1, 0xc8, 0xa7, 0x99, 0x99, 0x6b, 0xf0, 0x26, 0x5b, 0x98, 0xb5, 0xd4, 0x8a, 0xb9, 0x19]) := by
  decide

/-- Starting with itself: `pyStartsWith p (p ++ s)` always holds. -/
theorem pyStartsWith_append (p s : PyStr) : pyStartsWith p (p ++ s) = true := by
  induction p with
  | nil => rfl
  | cons c cs ih => simp [pyStartsWith, ih]

/-- A string starting with the `v1:` tag does not start with the `KEYRING:`
tag. -/
theorem startsWith_v1_not_keyring (d : PyStr) (h : pyStartsWith (pstr "v1:") d = true) :
    pyStartsWith (pstr "KEYRING:") d = false := by
  have hv : pstr "v1:" = [118, 49, 58] := rfl
  have hk : pstr "KEYRING:" = [75, 69, 89, 82, 73, 78, 71, 58] := rfl
  rw [hv] at h
  rw [hk]
  match d with
  | [] => simp [pyStartsWith] at h
  | c :: cs =>
    simp only [pyStartsWith, Bool.and_eq_true, beq_iff_eq] at h
    simp [pyStartsWith, ← h.1]

/-- XOR against the same keystream twice, from any index, is the identity. -/
theorem xorKSFrom_involutive (key : PyBytes) (i : Nat) (bs : PyBytes) :
    xorKSFrom key i (xorKSFrom key i bs) = bs := by
  induction bs generalizing i with
  | nil => rfl
  | cons b rest ih =>
    simp only [xorKSFrom, ih]
    rw [Nat.xor_assoc, Nat.xor_self, Nat.xor_zero]

/-- XOR against the same keystream twice is the identity. -/
theorem xorKeystream_involutive (key bs : PyBytes) :
    xorKeystream key (xorKeystream key bs) = bs :=
  xorKSFrom_involutive key 0 bs

/-- A `getD` over a list of bytes stays below 256. -/
theorem getD_lt_256 (l : PyBytes) (h : ∀ b ∈ l, b < 256) (j : Nat) : l.getD j 0 < 256 := by
  rcases Nat.lt_or_ge j l.length with hj | hj
  · rw [List.getD_eq_getElem l 0 hj]
    exact h _ (List.getElem_mem hj)
  · rw [List.getD_eq_default l 0 hj]
    omega

/-- The keystream XOR of byte strings is a byte string. -/
theorem xorKSFrom_lt_256 (key : PyBytes) (hk : ∀ b ∈ key, b < 256) :
    ∀ (bs : PyBytes) (i : Nat), (∀ b ∈ bs, b < 256) → ∀ b ∈ xorKSFrom key i bs, b < 256 := by
  intro bs
  induction bs with
  | nil => intro i _ b hmem; simp [xorKSFrom] at hmem
  | cons b rest ih =>
    intro i hb x hmem
    simp only [xorKSFrom, List.mem_cons] at hmem
    rcases hmem with hx | hx
    · subst hx
      have h1 : b < 2 ^ 8 := by have := hb b (by simp); omega
      have h2 : key.getD (i % key.length) 0 < 2 ^ 8 := by
        have := getD_lt_256 key hk (i % key.length); omega
      have h3 := Nat.xor_lt_two_pow h1 h2
      exact (by norm_num : (2 : Nat) ^ 8 = 256) ▸ h3
    · exact ih (i + 1) (fun y hy => hb y (List.mem_cons_of_mem _ hy)) x hx

/-- SHA-256 digests are byte strings. -/
theorem sha256_lt_256 (msg : PyBytes) : ∀ b ∈ sha256 msg, b < 256 := by
  intro b hmem
  simp only [sha256, List.mem_flatMap, wordBytes] at hmem
  obtain ⟨w, _, hw⟩ := hmem
  simp only [List.mem_cons, List.not_mem_nil, or_false] at hw
  rcases hw with h | h | h | h <;> omega


/-- An encoded scalar is a nonempty byte sequence. -/
theorem utf8Char_ne_nil (c : Nat) : utf8Char c ≠ [] := by
  unfold utf8Char
  split
  · simp
  · split
    · simp
    · split <;> simp

/-- One decoding step on an encoded valid scalar recovers the scalar and the
remaining bytes. -/
theorem utf8DecodeOne_char (c : Nat) (h : validScalar c) (bs : PyBytes) :
    utf8DecodeOne (utf8Char c ++ bs) = some (c, bs) := by
  obtain ⟨h1, h2⟩ := h
  by_cases hc1 : c < 0x80
  · rw [utf8Char, if_pos hc1, List.cons_append, List.nil_append, utf8DecodeOne, if_pos hc1]
  · by_cases hc2 : c < 0x800
    · rw [utf8Char, if_neg hc1, if_pos hc2]
      rw [List.cons_append, List.cons_append, List.nil_append, utf8DecodeOne,
        if_neg (by omega), if_neg (by omega), if_pos (by omega), if_pos]
      · simp only [List.getD_cons_zero, List.drop_succ_cons, List.drop_zero,
          Option.some.injEq, Prod.mk.injEq]
        exact ⟨by unfold utf8Val2; omega, trivial⟩
      · simp only [List.getD_cons_zero, List.length_cons]
        refine ⟨by omega, by unfold utf8IsCont; omega⟩
    · by_cases hc3 : c < 0x10000
      · rw [utf8Char, if_neg hc1, if_neg hc2, if_pos hc3]
        rw [List.cons_append, List.cons_append, List.cons_append, List.nil_append,
          utf8DecodeOne, if_neg (by omega), if_neg (by omega), if_neg (by omega),
          if_pos (by omega), if_pos]
        · simp only [List.getD_cons_zero, List.getD_cons_succ, List.drop_succ_cons,
            List.drop_zero, Option.some.injEq, Prod.mk.injEq]
          exact ⟨by unfold utf8Val3; omega, trivial⟩
        · simp only [List.getD_cons_zero, List.getD_cons_succ, List.length_cons]
          refine ⟨by omega, ?_⟩
          unfold utf8Ok3 utf8IsCont utf8Val3
          omega
      · rw [utf8Char, if_neg hc1, if_neg hc2, if_neg hc3]
        rw [List.cons_append, List.cons_append, List.cons_append, List.cons_append,
          List.nil_append, utf8DecodeOne, if_neg (by omega), if_neg (by omega),
          if_neg (by omega), if_neg (by omega), if_pos (by omega), if_pos]
        · simp only [List.getD_cons_zero, List.getD_cons_succ, List.drop_succ_cons,
            List.drop_zero, Option.some.injEq, Prod.mk.injEq]
          exact ⟨by unfold utf8Val4; omega, trivial⟩
        · simp only [List.getD_cons_zero, List.getD_cons_succ, List.length_cons]
          refine ⟨by omega, ?_⟩
          unfold utf8Ok4 utf8IsCont utf8Val4
          omega

/-- Decoding with enough fuel inverts encoding. -/
theorem utf8DecodeF_encode (s : PyStr) :
    ∀ bs fuel, utf8Encode s = some bs → bs.length ≤ fuel → utf8DecodeF fuel bs = some s := by
  induction s with
  | nil =>
    intro bs fuel h _
    simp only [utf8Encode, Option.some.injEq] at h
    subst h
    cases fuel <;> rfl
  | cons c rest ih =>
    intro bs fuel h hfuel
    simp only [utf8Encode] at h
    by_cases hv : validScalar c
    · rw [if_pos hv] at h
      cases hr : utf8Encode rest with
      | none => rw [hr] at h; simp at h
      | some rb =>
        rw [hr] at h
        simp only [Option.map_some', Option.some.injEq] at h
        subst h
        have hone := utf8DecodeOne_char c hv rb
        obtain ⟨hd, tl, hbs⟩ : ∃ hd tl, utf8Char c ++ rb = hd :: tl := by
          cases hch : utf8Char c with
          | nil => exact absurd hch (utf8Char_ne_nil c)
          | cons x xs => exact ⟨x, xs ++ rb, by simp [hch]⟩
        have hlen : 1 + rb.length ≤ (utf8Char c ++ rb).length := by
          rw [List.length_append]
          have : 1 ≤ (utf8Char c).length := by
            cases hch : utf8Char c with
            | nil => exact absurd hch (utf8Char_ne_nil c)
            | cons x xs => simp
          omega
        cases fuel with
        | zero =>
          rw [hbs] at hfuel
          simp only [List.length_cons] at hfuel
          omega
        | succ f =>
          rw [hbs] at hone ⊢
          rw [utf8DecodeF]
          simp only [hone]
          have hih : utf8DecodeF f rb = some rest := by
            apply ih rb f hr
            rw [hbs] at hlen hfuel
            omega
          rw [hih]
          rfl
    · rw [if_neg hv] at h; simp at h

/-- Decoding inverts encoding: the strict UTF-8 decoder recovers exactly the
code points the encoder consumed. -/
theorem utf8Decode_encode (s : PyStr) (bs : PyBytes) (h : utf8Encode s = some bs) :
    utf8Decode bs = some s :=
  utf8DecodeF_encode s bs bs.length h (Nat.le_refl _)

/-- Bytes of an encoded valid scalar are below 256. -/
theorem utf8Char_lt_256 (c : Nat) (h : validScalar c) : ∀ b ∈ utf8Char c, b < 256 := by
  obtain ⟨h1, _⟩ := h
  intro b hb
  unfold utf8Char at hb
  by_cases hc1 : c < 0x80
  · rw [if_pos hc1] at hb
    simp only [List.mem_singleton] at hb
    omega
  · by_cases hc2 : c < 0x800
    · rw [if_neg hc1, if_pos hc2] at hb
      simp only [List.mem_cons, List.not_mem_nil, or_false] at hb
      rcases hb with h | h <;> omega
    · by_cases hc3 : c < 0x10000
      · rw [if_neg hc1, if_neg hc2, if_pos hc3] at hb
        simp only [List.mem_cons, List.not_mem_nil, or_false] at hb
        rcases hb with h | h | h <;> omega
      · rw [if_neg hc1, if_neg hc2, if_neg hc3] at hb
        simp only [List.mem_cons, List.not_mem_nil, or_false] at hb
        rcases hb with h | h | h | h <;> omega

/-- UTF-8 encodings are byte strings. -/
theorem utf8Encode_lt_256 (s : PyStr) :
    ∀ bs, utf8Encode s = some bs → ∀ b ∈ bs, b < 256 := by
  induction s with
  | nil => intro bs h; simp only [utf8Encode, Option.some.injEq] at h; subst h; simp
  | cons c rest ih =>
    intro bs h
    simp only [utf8Encode] at h
    by_cases hv : validScalar c
    · rw [if_pos hv] at h
      cases hr : utf8Encode rest with
      | none => rw [hr] at h; simp at h
      | some rb =>
        rw [hr] at h
        simp only [Option.map_some', Option.some.injEq] at h
        subst h
        intro b hb
        rcases List.mem_append.mp hb with hm | hm
        · exact utf8Char_lt_256 c hv b hm
        · exact ih rb hr b hm
    · rw [if_neg hv] at h; simp at h

/-- Encoding succeeds exactly on strings of valid scalar values. -/
theorem utf8Encode_isSome_iff (s : PyStr) : (utf8Encode s).isSome = true ↔ ValidStr s := by
  induction s with
  | nil =>
    simp only [utf8Encode, Option.isSome_some, true_iff]
    intro c hc
    simp at hc
  | cons c rest ih =>
    simp only [utf8Encode]
    by_cases hv : validScalar c
    · rw [if_pos hv]
      constructor
      · intro h x hx
        rcases List.mem_cons.mp hx with hx | hx
        · subst hx; exact hv
        · refine ih.mp ?_ x hx
          cases hr : utf8Encode rest with
          | none => rw [hr] at h; simp at h
          | some rb => simp
      · intro h
        have hrest : ValidStr rest := fun x hx => h x (List.mem_cons_of_mem _ hx)
        have hsome : (utf8Encode rest).isSome = true := ih.mpr hrest
        cases hr : utf8Encode rest with
        | none => rw [hr] at hsome; simp at hsome
        | some rb => simp
    · rw [if_neg hv]
      simp only [Option.isSome_none, Bool.false_eq_true, false_iff]
      intro h
      exact hv (h c (List.mem_cons_self c rest))

/-- The base64 alphabet map is inverted by the index map on 6-bit values. -/
theorem b64idx_b64chr : ∀ n, n < 64 → b64idx (b64chr n) = some n := by decide

/-- No base64 alphabet character is the padding character. -/
theorem b64chr_ne_pad : ∀ n, n < 64 → b64chr n ≠ 61 := by decide

/-- Decoding inverts encoding for base64 on byte strings. -/
theorem b64decode_encode (bs : PyBytes) (h : ∀ b ∈ bs, b < 256) :
    b64decode (b64encode bs) = some bs := by
  induction bs using b64encode.induct with
  | case1 a b c rest ih =>
    have ha : a < 256 := h a (by simp)
    have hb : b < 256 := h b (by simp)
    have hc : c < 256 := h c (by simp)
    have e1 : b64idx (b64chr (a / 4)) = some (a / 4) := b64idx_b64chr _ (by omega)
    have e2 : b64idx (b64chr (a % 4 * 16 + b / 16)) = some (a % 4 * 16 + b / 16) :=
      b64idx_b64chr _ (by omega)
    have e3 : b64idx (b64chr (b % 16 * 4 + c / 64)) = some (b % 16 * 4 + c / 64) :=
      b64idx_b64chr _ (by omega)
    have e4 : b64idx (b64chr (c % 64)) = some (c % 64) := b64idx_b64chr _ (by omega)
    have p3 : b64chr (b % 16 * 4 + c / 64) ≠ 61 := b64chr_ne_pad _ (by omega)
    have p4 : b64chr (c % 64) ≠ 61 := b64chr_ne_pad _ (by omega)
    rw [b64encode, b64decode]
    simp only [e1, e2, e3, e4, Option.some_bind]
    rw [if_neg (fun hcon => p3 hcon.1), if_neg (fun hcon => p4 hcon.1)]
    rw [ih (fun x hx => h x (by simp [hx]))]
    simp only [Option.map_some', Option.some.injEq]
    congr 1
    · omega
    congr 1
    · omega
    congr 1
    omega
  | case2 a b =>
    have ha : a < 256 := h a (by simp)
    have hb : b < 256 := h b (by simp)
    have e1 : b64idx (b64chr (a / 4)) = some (a / 4) := b64idx_b64chr _ (by omega)
    have e2 : b64idx (b64chr (a % 4 * 16 + b / 16)) = some (a % 4 * 16 + b / 16) :=
      b64idx_b64chr _ (by omega)
    have e3 : b64idx (b64chr (b % 16 * 4)) = some (b % 16 * 4) := b64idx_b64chr _ (by omega)
    have p3 : b64chr (b % 16 * 4) ≠ 61 := b64chr_ne_pad _ (by omega)
    rw [b64encode, b64decode]
    simp only [e1, e2, e3, Option.some_bind]
    rw [if_neg (fun hcon => p3 hcon.1), if_pos (by simp)]
    simp only [Option.some.injEq]
    congr 1
    · omega
    congr 1
    omega
  | case3 a =>
    have ha : a < 256 := h a (by simp)
    have e1 : b64idx (b64chr (a / 4)) = some (a / 4) := b64idx_b64chr _ (by omega)
    have e2 : b64idx (b64chr (a % 4 * 16)) = some (a % 4 * 16) := b64idx_b64chr _ (by omega)
    rw [b64encode, b64decode]
    simp only [e1, e2, Option.some_bind]
    rw [if_pos (by simp)]
    simp only [Option.some.injEq]
    congr 1
    omega
  | case4 => rfl

/-- Concrete check of the whole fallback scheme against the value CPython
produces for machine id HOSTbobWindows and cookie abc123. -/
theorem fallback_encrypt_concrete_value :
    fallback_encrypt (pstr "HOSTbobWindows") (pstr "abc123") = pstr "v1:c5fjPkxb" := by
  decide

/-- The fallback decryption inverts the fallback encryption under the same
machine identity, for strings of valid scalar values. -/
theorem fallback_decrypt_encrypt (mid token : PyStr) (hm : ValidStr mid) (ht : ValidStr token) :
    fallback_decrypt mid (fallback_encrypt mid token) = some token := by
  obtain ⟨mb, hmb⟩ := Option.isSome_iff_exists.mp ((utf8Encode_isSome_iff mid).mpr hm)
  obtain ⟨tb, htb⟩ := Option.isSome_iff_exists.mp ((utf8Encode_isSome_iff token).mpr ht)
  unfold fallback_encrypt fallback_decrypt
  simp only [hmb, htb]
  have hdrop : (pstr "v1:" ++ b64encode (xorKeystream (sha256 mb) tb)).drop 3 =
      b64encode (xorKeystream (sha256 mb) tb) := rfl
  rw [hdrop]
  have hbound : ∀ b ∈ xorKeystream (sha256 mb) tb, b < 256 :=
    xorKSFrom_lt_256 (sha256 mb) (sha256_lt_256 mb) tb 0 (utf8Encode_lt_256 token tb htb)
  have h64 : b64decode (b64encode (xorKeystream (sha256 mb) tb)) =
      some (xorKeystream (sha256 mb) tb) := b64decode_encode _ hbound
  simp only [h64]
  rw [xorKeystream_involutive]
  exact utf8Decode_encode token tb htb

/-- Claim C3: for every token string and machine identity string (of valid
scalar values), the fallback scheme encrypts to a non-empty `v1:`-prefixed
base64 string whose decryption under the same machine identity recovers the
token exactly; the decryption side is the full `decrypt_cookie` dispatch of
the source. -/
theorem fallback_scheme_roundtrip (env : Env) (mid token : PyStr)
    (hm : ValidStr mid) (ht : ValidStr token) (henv : env.machineId = mid) :
    fallback_encrypt mid token ≠ [] ∧
    pyStartsWith (pstr "v1:") (fallback_encrypt mid token) = true ∧
    decrypt_cookie env (fallback_encrypt mid token) = some token := by
  obtain ⟨mb, hmb⟩ := Option.isSome_iff_exists.mp ((utf8Encode_isSome_iff mid).mpr hm)
  obtain ⟨tb, htb⟩ := Option.isSome_iff_exists.mp ((utf8Encode_isSome_iff token).mpr ht)
  have henc : fallback_encrypt mid token =
      pstr "v1:" ++ b64encode (xorKeystream (sha256 mb) tb) := by
    unfold fallback_encrypt
    simp only [hmb, htb]
  have hv1 : pyStartsWith (pstr "v1:") (fallback_encrypt mid token) = true := by
    rw [henc]; exact pyStartsWith_append _ _
  refine ⟨by rw [henc]; simp [pstr], hv1, ?_⟩
  rw [decrypt_cookie]
  rw [if_neg (by rw [henc]; simp [pstr])]
  rw [startsWith_v1_not_keyring _ hv1]
  simp only [Bool.false_eq_true, if_false, hv1, if_pos]
  rw [henv]
  exact fallback_decrypt_encrypt mid token hm ht

/-- Witness for claim C3 at the spec's example: machine id HOSTbobWindows
and plaintext abc123 round-trip. -/
theorem fallback_scheme_roundtrip_witness :
    ValidStr (pstr "HOSTbobWindows") ∧ ValidStr (pstr "abc123") ∧
    (fallback_encrypt (pstr "HOSTbobWindows") (pstr "abc123") ≠ [] ∧
     pyStartsWith (pstr "v1:") (fallback_encrypt (pstr "HOSTbobWindows") (pstr "abc123")) = true ∧
     decrypt_cookie ⟨false, false, [], pstr "HOSTbobWindows"⟩
       (fallback_encrypt (pstr "HOSTbobWindows") (pstr "abc123")) = some (pstr "abc123")) :=
  ⟨by decide, by decide,
   fallback_scheme_roundtrip ⟨false, false, [], pstr "HOSTbobWindows"⟩
     (pstr "HOSTbobWindows") (pstr "abc123") (by decide) (by decide) rfl⟩

/-- Claim C1: on a blob shaped [3-byte version][12-byte nonce][ciphertext]
[16-byte tag], the cookie value decryption of the source (and its use under
percent decoding in `get_steam_cookie`) equals the spec-side composition:
split off exactly those components, AES-GCM-decrypt the ciphertext with the
key, decode the plaintext as UTF-8, then percent-decode.  The key is
arbitrary; the AES layer itself requires it to be an AES key size (32 bytes
for the source's AES-256 use). -/
theorem cookie_value_decryption_pipeline (key ver nonce ct tag : PyBytes)
    (hver : ver.length = 3) (hn : nonce.length = 12) (ht : tag.length = 16) :
    decrypt_aes_gcm (ver ++ (nonce ++ (ct ++ tag))) key =
      (aesGcmDecrypt key nonce ct tag).bind utf8Decode ∧
    (decrypt_aes_gcm (ver ++ (nonce ++ (ct ++ tag))) key).map pyUnquote =
      ((aesGcmDecrypt key nonce ct tag).bind utf8Decode).map pyUnquote := by
  have h1 : (ver ++ (nonce ++ (ct ++ tag))).drop 3 = nonce ++ (ct ++ tag) := by
    rw [← hver]; exact List.drop_left _ _
  have h2 : (nonce ++ (ct ++ tag)).take 12 = nonce := by
    rw [← hn]; exact List.take_left _ _
  have h3 : (nonce ++ (ct ++ tag)).drop 12 = ct ++ tag := by
    rw [← hn]; exact List.drop_left _ _
  have h4 : (ct ++ tag).length - 16 = ct.length := by
    simp [List.length_append, ht]
  have h5 : (ct ++ tag).drop ct.length = tag := List.drop_left _ _
  have h6 : (ct ++ tag).take ct.length = ct := List.take_left _ _
  have main : decrypt_aes_gcm (ver ++ (nonce ++ (ct ++ tag))) key =
      (aesGcmDecrypt key nonce ct tag).bind utf8Decode := by
    unfold decrypt_aes_gcm
    simp only [h1, h2, h3, h4, h5, h6]
  exact ⟨main, by rw [main]⟩

/-- Witness for claim C1 at a concrete shaped blob. -/
theorem cookie_value_decryption_pipeline_witness :
    ([118, 49, 48] : PyBytes).length = 3 ∧ (List.replicate 12 0 : PyBytes).length = 12 ∧
    (List.replicate 16 0 : PyBytes).length = 16 ∧
    (decrypt_aes_gcm ([118, 49, 48] ++ (List.replicate 12 0 ++ ([1, 2, 3] ++ List.replicate 16 0)))
        (List.replicate 32 0) =
      (aesGcmDecrypt (List.replicate 32 0) (List.replicate 12 0) [1, 2, 3]
          (List.replicate 16 0)).bind utf8Decode ∧
    (decrypt_aes_gcm ([118, 49, 48] ++ (List.replicate 12 0 ++ ([1, 2, 3] ++ List.replicate 16 0)))
          (List.replicate 32 0)).map pyUnquote =
      ((aesGcmDecrypt (List.replicate 32 0) (List.replicate 12 0) [1, 2, 3]
          (List.replicate 16 0)).bind utf8Decode).map pyUnquote) :=
  ⟨by decide, by decide, by decide,
   cookie_value_decryption_pipeline (List.replicate 32 0) [118, 49, 48] (List.replicate 12 0)
     [1, 2, 3] (List.replicate 16 0) (by decide) (by decide) (by decide)⟩

/-- Concrete end-to-end check: a blob built with the AES-GCM encryption of a
URL-encoded token decrypts and percent-decodes back through the source's
pipeline to the token. -/
theorem decrypt_aes_gcm_roundtrip_concrete :
    (decrypt_aes_gcm
        ([118, 49, 48] ++ List.replicate 12 0 ++
          (aesGcmEncrypt (List.replicate 32 0) (List.replicate 12 0) (pstr "sess%3Dabc")).1 ++
          (aesGcmEncrypt (List.replicate 32 0) (List.replicate 12 0) (pstr "sess%3Dabc")).2)
        (List.replicate 32 0)).map pyUnquote = some (pstr "sess=abc") := by
  decide

/-- Altering the authentication tag of a decryptable blob (to any other
16-byte tag) makes AES-GCM decryption fail: success requires the given tag
to equal the tag recomputed from the ciphertext, which does not depend on
the given tag.  This settles the tag half of the tamper-evidence property;
the ciphertext half rests on the injectivity of GHASH under a nonzero hash
subkey, which no theorem here claims. -/
theorem aesGcmDecrypt_tag_tampered (key iv ct tag tag2 : PyBytes)
    (hok : (aesGcmDecrypt key iv ct tag).isSome = true) (hlen : tag2.length = 16)
    (hne : tag2 ≠ tag) : aesGcmDecrypt key iv ct tag2 = none := by
  unfold aesGcmDecrypt at hok ⊢
  by_cases h1 : (key.length = 16 ∨ key.length = 24 ∨ key.length = 32) ∧
      1 ≤ iv.length ∧ tag.length = 16
  · rw [if_pos h1] at hok
    by_cases h2 : tag = gcmTag key iv ct
    · rw [if_pos ⟨h1.1, h1.2.1, hlen⟩]
      rw [if_neg (fun hc => hne (by rw [hc, ← h2]))]
    · rw [if_neg h2] at hok
      simp at hok
  · rw [if_neg h1] at hok
    simp at hok

/-- Counterexample to claim C4 as stated: the empty string carries no
recognized scheme tag, yet `decrypt_cookie` returns no value for it instead
of passing it through unchanged (the `if not encrypted_data` guard fires
first). -/
theorem decrypt_cookie_empty_not_passthrough :
    pyStartsWith (pstr "KEYRING:") [] = false ∧ pyStartsWith (pstr "v1:") [] = false ∧
    decrypt_cookie ⟨false, false, [], []⟩ [] = none ∧
    decrypt_cookie ⟨false, false, [], []⟩ [] ≠ some [] := by
  exact ⟨rfl, rfl, rfl, by decide⟩

/-- Claim C4, amended: every NON-EMPTY stored cookie string without a
recognized scheme tag is returned unchanged as legacy plaintext, and the
scheme tag alone determines the decoding procedure (keyring lookup for
`KEYRING:`, the machine-keyed fallback for `v1:`). -/
theorem decrypt_cookie_tag_dispatch (env : Env) (data : PyStr) (hne : data ≠ []) :
    (pyStartsWith (pstr "KEYRING:") data = false → pyStartsWith (pstr "v1:") data = false →
      decrypt_cookie env data = some data) ∧
    (pyStartsWith (pstr "KEYRING:") data = true →
      decrypt_cookie env data =
        if env.keyringAvailable then krGet env.keyring SERVICE_NAME (data.drop 8) else none) ∧
    (pyStartsWith (pstr "v1:") data = true →
      decrypt_cookie env data = fallback_decrypt env.machineId data) := by
  refine ⟨?_, ?_, ?_⟩
  · intro hk hv
    simp [decrypt_cookie, hne, hk, hv]
  · intro hk
    simp [decrypt_cookie, hne, hk]
  · intro hv
    have hk := startsWith_v1_not_keyring data hv
    simp [decrypt_cookie, hne, hk, hv]

/-- Witness for the amended claim C4 at a concrete legacy value. -/
theorem decrypt_cookie_tag_dispatch_witness :
    pstr "legacy" ≠ ([] : PyStr) ∧
    ((pyStartsWith (pstr "KEYRING:") (pstr "legacy") = false →
        pyStartsWith (pstr "v1:") (pstr "legacy") = false →
        decrypt_cookie ⟨false, false, [], []⟩ (pstr "legacy") = some (pstr "legacy")) ∧
     (pyStartsWith (pstr "KEYRING:") (pstr "legacy") = true →
        decrypt_cookie ⟨false, false, [], []⟩ (pstr "legacy") =
          if (false : Bool) then krGet [] SERVICE_NAME ((pstr "legacy").drop 8) else none) ∧
     (pyStartsWith (pstr "v1:") (pstr "legacy") = true →
        decrypt_cookie ⟨false, false, [], []⟩ (pstr "legacy") = fallback_decrypt [] (pstr "legacy"))) :=
  ⟨by decide, decrypt_cookie_tag_dispatch ⟨false, false, [], []⟩ (pstr "legacy") (by decide)⟩

/-- Claim C5: with no unwrapped AES key the whole extraction aborts with no
cookie regardless of the rows; a row whose value fails to decrypt is skipped
and the scan continues with the remaining rows; and a scan whose first row
fails decryption can still succeed on a later row. -/
theorem steam_cookie_scan_error_handling (key : PyBytes) (name target : PyStr) (ev : PyBytes)
    (rest rows : List (PyStr × PyBytes)) (hfail : decrypt_aes_gcm ev key = none) :
    get_steam_cookie none rows target = none ∧
    get_steam_cookie (some key) ((name, ev) :: rest) target = scanCookieRows key target rest ∧
    get_steam_cookie (some (List.replicate 32 0))
        [(pstr "corrupt", []),
         (pstr "shipping_manager_session",
          [118, 49, 48] ++ List.replicate 12 0 ++
            (aesGcmEncrypt (List.replicate 32 0) (List.replicate 12 0) (pstr "sess%3Dabc")).1 ++
            (aesGcmEncrypt (List.replicate 32 0) (List.replicate 12 0) (pstr "sess%3Dabc")).2)]
        (pstr "shipping_manager_session") = some (pstr "sess=abc") := by
  refine ⟨rfl, ?_, by decide⟩
  rw [get_steam_cookie, if_neg (by simp)]
  rw [scanCookieRows]
  simp only [hfail]

/-- Witness for claim C5 at a concrete row whose value fails decryption. -/
theorem steam_cookie_scan_error_handling_witness :
    decrypt_aes_gcm [] (List.replicate 32 0) = none ∧
    (get_steam_cookie none [] (pstr "t") = none ∧
     get_steam_cookie (some (List.replicate 32 0)) [(pstr "corrupt", [])] (pstr "t") =
       scanCookieRows (List.replicate 32 0) (pstr "t") [] ∧
     get_steam_cookie (some (List.replicate 32 0))
        [(pstr "corrupt", []),
         (pstr "shipping_manager_session",
          [118, 49, 48] ++ List.replicate 12 0 ++
            (aesGcmEncrypt (List.replicate 32 0) (List.replicate 12 0) (pstr "sess%3Dabc")).1 ++
            (aesGcmEncrypt (List.replicate 32 0) (List.replicate 12 0) (pstr "sess%3Dabc")).2)]
        (pstr "shipping_manager_session") = some (pstr "sess=abc")) :=
  ⟨by decide,
   steam_cookie_scan_error_handling (List.replicate 32 0) (pstr "corrupt") (pstr "t") []
     [] [] (by decide)⟩

/-- Looking up the just-written key returns the new record. -/
theorem getSession_setSession_self (s : Sessions) (uid : PyStr) (rec : SessionRecord) :
    getSession (setSession s uid rec) uid = some rec := by
  induction s with
  | nil => simp [setSession, getSession]
  | cons p rest ih =>
    obtain ⟨k, r⟩ := p
    by_cases hk : k = uid
    · simp [setSession, getSession, hk]
    · simp [setSession, getSession, hk, ih]

/-- Writing one key leaves every other key's binding unchanged. -/
theorem getSession_setSession_ne (s : Sessions) (uid u' : PyStr) (rec : SessionRecord)
    (hne : u' ≠ uid) : getSession (setSession s uid rec) u' = getSession s u' := by
  have hne' : ¬(uid = u') := fun h => hne h.symm
  induction s with
  | nil =>
    simp only [setSession, getSession]
    rw [if_neg hne']
  | cons p rest ih =>
    obtain ⟨k, r⟩ := p
    by_cases hk : k = uid
    · subst hk
      simp only [setSession, if_pos rfl, getSession]
      rw [if_neg hne', if_neg hne']
    · simp only [setSession, if_neg hk, getSession]
      by_cases hk' : k = u'
      · rw [if_pos hk', if_pos hk']
      · rw [if_neg hk', if_neg hk', ih]

/-- Characterization of the response well-formedness test of
`validate_session_cookie`: the extracted user is exactly a JSON-object
`user` field with a truthy `id`. -/
theorem extractUser_iff (data : JValue) (user : JValue) :
    extractUser data = some user ↔
      ∃ m mu, data = .obj m ∧ jlookup m (pstr "user") = some (.obj mu) ∧
        jtruthy ((jlookup mu (pstr "id")).getD .null) = true ∧ user = .obj mu := by
  constructor
  · intro h
    cases data with
    | obj m =>
      simp only [extractUser, pyGet] at h
      cases hu : jlookup m (pstr "user") with
      | none =>
        rw [hu] at h
        simp [pyGet, jlookup, jtruthy] at h
      | some v =>
        rw [hu] at h
        cases v with
        | obj mu =>
          simp only [Option.getD_some, pyGet] at h
          by_cases hid : jtruthy ((jlookup mu (pstr "id")).getD .null) = true
          · rw [if_pos hid] at h
            simp only [Option.some.injEq] at h
            exact ⟨m, mu, rfl, hu, hid, h.symm⟩
          · rw [if_neg hid] at h
            simp at h
        | null => simp [pyGet] at h
        | bool b => simp [pyGet] at h
        | num n => simp [pyGet] at h
        | str s => simp [pyGet] at h
        | arr xs => simp [pyGet] at h
    | null => simp [extractUser, pyGet] at h
    | bool b => simp [extractUser, pyGet] at h
    | num n => simp [extractUser, pyGet] at h
    | str s => simp [extractUser, pyGet] at h
    | arr xs => simp [extractUser, pyGet] at h
  · intro ⟨m, mu, hdata, hu, hid, huser⟩
    subst hdata huser
    simp only [extractUser, pyGet, hu, Option.getD_some]
    rw [if_pos hid]

/-- Claim C6: with a plaintext (non-tagged) cookie, the freshness check
returns the user object exactly when the endpoint call returns status 200
with a body whose `user` field is a well-formed object with a truthy id, and
returns no user (expired) on every other outcome: exception/timeout,
non-200 status, or malformed body.  The function is total, so no exception
reaches the caller. -/
theorem session_freshness_outcomes (env : Env) (cookie : PyStr) (user_id : Option PyStr)
    (hplain : is_encrypted cookie = false) :
    validate_session_cookie env cookie user_id .exc = none ∧
    (∀ st body, st ≠ 200 → validate_session_cookie env cookie user_id (.resp st body) = none) ∧
    validate_session_cookie env cookie user_id (.resp 200 none) = none ∧
    (∀ data, validate_session_cookie env cookie user_id (.resp 200 (some data)) =
      extractUser data) := by
  refine ⟨?_, ?_, ?_, ?_⟩
  · simp [validate_session_cookie, hplain]
  · intro st body hst
    simp [validate_session_cookie, hplain, hst]
  · simp [validate_session_cookie, hplain]
  · intro data
    simp [validate_session_cookie, hplain]

/-- Witness for claim C6 at a concrete plaintext cookie, including a
successful outcome on a well-formed user object. -/
theorem session_freshness_outcomes_witness :
    is_encrypted (pstr "plain") = false ∧
    (validate_session_cookie ⟨false, false, [], []⟩ (pstr "plain") none .exc = none ∧
     (∀ st body, st ≠ 200 →
        validate_session_cookie ⟨false, false, [], []⟩ (pstr "plain") none (.resp st body) = none) ∧
     validate_session_cookie ⟨false, false, [], []⟩ (pstr "plain") none (.resp 200 none) = none ∧
     (∀ data, validate_session_cookie ⟨false, false, [], []⟩ (pstr "plain") none
        (.resp 200 (some data)) = extractUser data)) ∧
    extractUser (.obj [(pstr "user", .obj [(pstr "id", .num 7)])]) =
      some (.obj [(pstr "id", .num 7)]) :=
  ⟨by decide,
   session_freshness_outcomes ⟨false, false, [], []⟩ (pstr "plain") none (by decide),
   by rfl⟩

/-- Claim C7: on the successful keyring path, `encrypt_cookie` performs
exactly a delete of the deterministic account then a write of the token
under it, the keyring afterwards holds the token, the session record stores
exactly the opaque reference KEYRING:session_uid, and (unless the token
itself carries the tag) the stored value differs from the token. -/
theorem keyring_save_opaque_reference (env : Env) (kr : List ((PyStr × PyStr) × PyStr))
    (sessions : Sessions) (cookie uid comp meth : PyStr) (now : Nat)
    (havail : env.keyringAvailable = true) (hok : env.keyringWriteFails = false) :
    (encrypt_cookie env cookie uid).2 =
      [KrOp.del SERVICE_NAME (pstr "session_" ++ uid),
       KrOp.set SERVICE_NAME (pstr "session_" ++ uid) cookie] ∧
    (encrypt_cookie env cookie uid).1 = pstr "KEYRING:" ++ (pstr "session_" ++ uid) ∧
    krGet (krRun kr (encrypt_cookie env cookie uid).2) SERVICE_NAME (pstr "session_" ++ uid) =
      some cookie ∧
    getSession (save_session env sessions uid cookie comp meth now).1 uid =
      some ⟨pstr "KEYRING:" ++ (pstr "session_" ++ uid), now, comp, meth⟩ ∧
    (pyStartsWith (pstr "KEYRING:") cookie = false →
      pstr "KEYRING:" ++ (pstr "session_" ++ uid) ≠ cookie) := by
  have e2 : encrypt_cookie env cookie uid =
      (pstr "KEYRING:" ++ (pstr "session_" ++ uid),
       [KrOp.del SERVICE_NAME (pstr "session_" ++ uid),
        KrOp.set SERVICE_NAME (pstr "session_" ++ uid) cookie]) := by
    simp [encrypt_cookie, havail, hok]
  refine ⟨by rw [e2], by rw [e2], ?_, ?_, ?_⟩
  · rw [e2]
    simp [krGet, krRun, krApply, List.lookup]
  · rw [save_session, e2]
    exact getSession_setSession_self sessions uid _
  · intro hns heq
    have := pyStartsWith_append (pstr "KEYRING:") (pstr "session_" ++ uid)
    rw [heq, hns] at this
    exact Bool.false_ne_true this

/-- Witness for claim C7 at concrete inputs. -/
theorem keyring_save_opaque_reference_witness :
    ((⟨true, false, [], []⟩ : Env).keyringAvailable = true) ∧
    ((⟨true, false, [], []⟩ : Env).keyringWriteFails = false) ∧
    ((encrypt_cookie ⟨true, false, [], []⟩ (pstr "tok") (pstr "7")).2 =
      [KrOp.del SERVICE_NAME (pstr "session_" ++ pstr "7"),
       KrOp.set SERVICE_NAME (pstr "session_" ++ pstr "7") (pstr "tok")] ∧
     (encrypt_cookie ⟨true, false, [], []⟩ (pstr "tok") (pstr "7")).1 =
       pstr "KEYRING:" ++ (pstr "session_" ++ pstr "7") ∧
     krGet (krRun [] (encrypt_cookie ⟨true, false, [], []⟩ (pstr "tok") (pstr "7")).2)
        SERVICE_NAME (pstr "session_" ++ pstr "7") = some (pstr "tok") ∧
     getSession (save_session ⟨true, false, [], []⟩ [] (pstr "7") (pstr "tok") (pstr "co")
        (pstr "steam") 5).1 (pstr "7") =
       some ⟨pstr "KEYRING:" ++ (pstr "session_" ++ pstr "7"), 5, pstr "co", pstr "steam"⟩ ∧
     (pyStartsWith (pstr "KEYRING:") (pstr "tok") = false →
       pstr "KEYRING:" ++ (pstr "session_" ++ pstr "7") ≠ pstr "tok")) :=
  ⟨rfl, rfl,
   keyring_save_opaque_reference ⟨true, false, [], []⟩ [] [] (pstr "tok") (pstr "7")
     (pstr "co") (pstr "steam") 5 rfl rfl⟩

/-- Claim C8: saving a session for one user id only creates or overwrites
that user's record (with the four fields the source writes); every other
user's binding is unchanged and no binding is ever removed. -/
theorem save_session_frame (env : Env) (sessions : Sessions)
    (uid cookie comp meth u' : PyStr) (now : Nat) (hne : u' ≠ uid) :
    getSession (save_session env sessions uid cookie comp meth now).1 u' =
      getSession sessions u' ∧
    getSession (save_session env sessions uid cookie comp meth now).1 uid =
      some ⟨(encrypt_cookie env cookie uid).1, now, comp, meth⟩ ∧
    (∀ k, (getSession sessions k).isSome = true →
      (getSession (save_session env sessions uid cookie comp meth now).1 k).isSome = true) := by
  refine ⟨?_, ?_, ?_⟩
  · rw [save_session]
    exact getSession_setSession_ne sessions uid u' _ hne
  · rw [save_session]
    exact getSession_setSession_self sessions uid _
  · intro k hk
    by_cases hku : k = uid
    · subst hku
      rw [save_session, getSession_setSession_self]
      rfl
    · rw [save_session, getSession_setSession_ne sessions uid k _ hku]
      exact hk

/-- Witness for claim C8 at a concrete two-user store. -/
theorem save_session_frame_witness :
    pstr "8" ≠ pstr "7" ∧
    (getSession (save_session ⟨true, false, [], []⟩
        [(pstr "8", ⟨pstr "old", 1, pstr "o", pstr "m"⟩)] (pstr "7") (pstr "tok") (pstr "co")
        (pstr "steam") 5).1 (pstr "8") =
      getSession [(pstr "8", ⟨pstr "old", 1, pstr "o", pstr "m"⟩)] (pstr "8") ∧
     getSession (save_session ⟨true, false, [], []⟩
        [(pstr "8", ⟨pstr "old", 1, pstr "o", pstr "m"⟩)] (pstr "7") (pstr "tok") (pstr "co")
        (pstr "steam") 5).1 (pstr "7") =
      some ⟨(encrypt_cookie ⟨true, false, [], []⟩ (pstr "tok") (pstr "7")).1, 5, pstr "co",
        pstr "steam"⟩ ∧
     (∀ k, (getSession [(pstr "8", ⟨pstr "old", 1, pstr "o", pstr "m"⟩)] k).isSome = true →
       (getSession (save_session ⟨true, false, [], []⟩
          [(pstr "8", ⟨pstr "old", 1, pstr "o", pstr "m"⟩)] (pstr "7") (pstr "tok") (pstr "co")
          (pstr "steam") 5).1 k).isSome = true)) :=
  ⟨by decide,
   save_session_frame ⟨true, false, [], []⟩ [(pstr "8", ⟨pstr "old", 1, pstr "o", pstr "m"⟩)]
     (pstr "7") (pstr "tok") (pstr "co") (pstr "steam") (pstr "8") 5 (by decide)⟩

/-- Structural JSON equality against a string value holds exactly on that
string value. -/
theorem jbeq_str_iff (v : JValue) (t : PyStr) : jbeq v (.str t) = true ↔ v = .str t := by
  cases v <;> simp [jbeq]

/-- On a JSON object, the missing-fields comprehension computes the filter
of the fields whose key is absent. -/
theorem missingFields_obj (o : List (PyStr × JValue)) (fs : List PyStr) :
    missingFields (.obj o) fs = some (fs.filter (fun f => !(o.any (fun e => e.1 == f)))) := by
  induction fs with
  | nil => rfl
  | cons f rest ih =>
    simp only [missingFields, pyContains, ih, Option.map_some', List.filter_cons]
    cases hp : o.any (fun e => e.1 == f) with
    | true => simp
    | false => simp

/-- The three required fields are all present exactly when the
missing-fields list is empty. -/
theorem missingFields_obj_nil_iff (o : List (PyStr × JValue)) :
    missingFields (.obj o) vbRequired = some [] ↔
      o.any (fun e => e.1 == pstr "version") = true ∧
      o.any (fun e => e.1 == pstr "created") = true ∧
      o.any (fun e => e.1 == pstr "source") = true := by
  rw [missingFields_obj]
  simp only [vbRequired, List.filter_cons, List.filter_nil, Option.some.injEq]
  cases h1 : o.any (fun e => e.1 == pstr "version") <;>
    cases h2 : o.any (fun e => e.1 == pstr "created") <;>
      cases h3 : o.any (fun e => e.1 == pstr "source") <;> simp

/-- Acceptance characterization of the source-tag and userdata stage. -/
theorem vbCheckSource_acc_iff (entries : List (PyStr × MetaParse)) (metadata m : JValue) :
    vbCheckSource entries metadata = .acc m ↔
      ∃ o, metadata = .obj o ∧
        jlookup o (pstr "source") = some (.str (pstr "ShippingManagerCoPilot")) ∧
        vbHasUserdata entries = true ∧ m = .obj o := by
  cases metadata with
  | obj o =>
    simp only [vbCheckSource, pyGet]
    constructor
    · intro h
      split at h
      · exact absurd h (by simp)
      · split at h
        · exact absurd h (by simp)
        · rename_i hj hud
          have hj' : jbeq ((jlookup o (pstr "source")).getD .null)
              (.str (pstr "ShippingManagerCoPilot")) = true := by
            revert hj
            cases jbeq ((jlookup o (pstr "source")).getD .null)
              (.str (pstr "ShippingManagerCoPilot")) <;> simp
          have hud' : vbHasUserdata entries = true := by
            revert hud
            cases vbHasUserdata entries <;> simp
          have hm : m = .obj o := by cases h; rfl
          refine ⟨o, rfl, ?_, hud', hm⟩
          cases hl : jlookup o (pstr "source") with
          | none => rw [hl] at hj'; simp [jbeq] at hj'
          | some v =>
            rw [hl] at hj'
            simp only [Option.getD_some] at hj'
            rw [jbeq_str_iff] at hj'
            rw [hj']
    · rintro ⟨o', ho, hlook, hud, hm⟩
      cases ho
      subst hm
      rw [hlook]
      simp only [Option.getD_some]
      rw [if_neg (by simp [jbeq_str_iff])]
      rw [if_neg (by simp [hud])]
  | null => simp [vbCheckSource, pyGet]
  | bool b => simp [vbCheckSource, pyGet]
  | num n => simp [vbCheckSource, pyGet]
  | str s => simp [vbCheckSource, pyGet]
  | arr xs => simp [vbCheckSource, pyGet]

/-- Acceptance characterization of the required-fields stage. -/
theorem vbCheckFields_acc_iff (entries : List (PyStr × MetaParse)) (metadata m : JValue) :
    vbCheckFields entries metadata = .acc m ↔
      missingFields metadata vbRequired = some [] ∧ vbCheckSource entries metadata = .acc m := by
  cases hmf : missingFields metadata vbRequired with
  | none => simp [vbCheckFields, hmf]
  | some missing =>
    simp only [vbCheckFields, hmf]
    by_cases hm : missing = []
    · subst hm
      simp
    · rw [if_pos hm]
      constructor
      · intro h
        exact absurd h (by simp)
      · rintro ⟨hnil, _⟩
        exact absurd (Option.some.inj hnil) hm

/-- Claim C9: backup validation accepts exactly the readable archives whose
`backup_metadata.json` entry parses to a JSON object carrying the three
required fields with the fixed source tag and whose entry list has a name
containing `userdata/`; and every input is answered with either an
acceptance or a rejection message, never an exception. -/
theorem validate_backup_acceptance (archive : ZipArchive) :
    (∀ m, validate_backup archive = .acc m ↔
      ∃ entries o,
        archive = .zip entries ∧
        entries.find? (fun e => e.1 == pstr "backup_metadata.json") =
          some (pstr "backup_metadata.json", .parsed (.obj o)) ∧
        o.any (fun e => e.1 == pstr "version") = true ∧
        o.any (fun e => e.1 == pstr "created") = true ∧
        o.any (fun e => e.1 == pstr "source") = true ∧
        jlookup o (pstr "source") = some (.str (pstr "ShippingManagerCoPilot")) ∧
        vbHasUserdata entries = true ∧
        m = .obj o) ∧
    ((∃ m, validate_backup archive = .acc m) ∨ (∃ s, validate_backup archive = .rej s)) := by
  constructor
  · intro m
    constructor
    · intro h
      cases archive with
      | badZip => simp [validate_backup] at h
      | zip entries =>
        simp only [validate_backup] at h
        cases hfind : entries.find? (fun e => e.1 == pstr "backup_metadata.json") with
        | none => rw [hfind] at h; simp at h
        | some entry =>
          obtain ⟨name, content⟩ := entry
          rw [hfind] at h
          simp only [] at h
          have hname : name = pstr "backup_metadata.json" := by
            have := List.find?_some hfind
            simpa using this
          subst hname
          cases content with
          | notUtf8 => simp [vbCheckMeta] at h
          | notJson => simp [vbCheckMeta] at h
          | parsed metadata =>
            simp only [vbCheckMeta] at h
            rw [vbCheckFields_acc_iff] at h
            obtain ⟨hmf, hsrc⟩ := h
            rw [vbCheckSource_acc_iff] at hsrc
            obtain ⟨o, hobj, hlook, hud, hm⟩ := hsrc
            subst hobj
            have h3 := (missingFields_obj_nil_iff o).mp hmf
            exact ⟨entries, o, rfl, hfind, h3.1, h3.2.1, h3.2.2, hlook, hud, hm⟩
    · rintro ⟨entries, o, harch, hfind, ha1, ha2, ha3, hlook, hud, hm⟩
      subst harch
      subst hm
      simp only [validate_backup, hfind]
      simp only [vbCheckMeta]
      rw [vbCheckFields_acc_iff]
      refine ⟨(missingFields_obj_nil_iff o).mpr ⟨ha1, ha2, ha3⟩, ?_⟩
      rw [vbCheckSource_acc_iff]
      exact ⟨o, rfl, hlook, hud, rfl⟩
  · cases h : validate_backup archive with
    | acc m => exact Or.inl ⟨m, rfl⟩
    | rej s => exact Or.inr ⟨s, rfl⟩

/-- Concrete accepted archive: metadata object with the three fields and
the fixed tag, plus a userdata entry. -/
theorem validate_backup_concrete_accept :
    validate_backup (.zip
      [(pstr "backup_metadata.json", .parsed (.obj
         [(pstr "version", .str (pstr "1.0")), (pstr "created", .str (pstr "now")),
          (pstr "source", .str (pstr "ShippingManagerCoPilot"))])),
       (pstr "userdata/settings/sessions.json", .notJson)]) =
      .acc (.obj
         [(pstr "version", .str (pstr "1.0")), (pstr "created", .str (pstr "now")),
          (pstr "source", .str (pstr "ShippingManagerCoPilot"))]) := by
  rfl

/-- The fallback scheme yields a `v1:`-tagged value on encodable inputs. -/
theorem fallback_encrypt_tagged (mid token : PyStr) (hm : ValidStr mid) (ht : ValidStr token) :
    pyStartsWith (pstr "v1:") (fallback_encrypt mid token) = true := by
  obtain ⟨mb, hmb⟩ := Option.isSome_iff_exists.mp ((utf8Encode_isSome_iff mid).mpr hm)
  obtain ⟨tb, htb⟩ := Option.isSome_iff_exists.mp ((utf8Encode_isSome_iff token).mpr ht)
  have henc : fallback_encrypt mid token =
      pstr "v1:" ++ b64encode (xorKeystream (sha256 mb) tb) := by
    unfold fallback_encrypt
    simp only [hmb, htb]
  rw [henc]
  exact pyStartsWith_append _ _

/-- The fallback scheme returns the plaintext itself when either encoding
step fails (the `except` arm of lines 124-127). -/
theorem fallback_encrypt_invalid (mid token : PyStr) (h : ¬ValidStr mid ∨ ¬ValidStr token) :
    fallback_encrypt mid token = token := by
  unfold fallback_encrypt
  rcases h with h | h
  · have hnone : utf8Encode mid = none := by
      cases hx : utf8Encode mid with
      | none => rfl
      | some b => exact absurd ((utf8Encode_isSome_iff mid).mp (by rw [hx]; rfl)) h
    simp [hnone]
  · cases hx : utf8Encode mid with
    | none => simp [hx]
    | some mb =>
      have hnone : utf8Encode token = none := by
        cases hy : utf8Encode token with
        | none => rfl
        | some b => exact absurd ((utf8Encode_isSome_iff token).mp (by rw [hy]; rfl)) h
      simp [hx, hnone]

/-- Claim C10: cookie encryption is total and always yields a string: the
keyring path yields the opaque reference; when the keyring is unavailable
or failing, the fallback yields a `v1:` value on encodable input and the
plaintext cookie itself when the fallback fails too; and whatever it
returns is exactly what the save operation records in the session file. -/
theorem encrypt_cookie_totality (env : Env) (cookie uid : PyStr) (sessions : Sessions)
    (comp meth : PyStr) (now : Nat) :
    (env.keyringAvailable = true → env.keyringWriteFails = false →
      (encrypt_cookie env cookie uid).1 = pstr "KEYRING:" ++ (pstr "session_" ++ uid)) ∧
    ((env.keyringAvailable = false ∨ env.keyringWriteFails = true) →
      ValidStr env.machineId → ValidStr cookie →
      pyStartsWith (pstr "v1:") (encrypt_cookie env cookie uid).1 = true) ∧
    ((env.keyringAvailable = false ∨ env.keyringWriteFails = true) →
      (¬ValidStr env.machineId ∨ ¬ValidStr cookie) →
      (encrypt_cookie env cookie uid).1 = cookie) ∧
    getSession (save_session env sessions uid cookie comp meth now).1 uid =
      some ⟨(encrypt_cookie env cookie uid).1, now, comp, meth⟩ := by
  have hfb : env.keyringAvailable = false ∨ env.keyringWriteFails = true →
      (encrypt_cookie env cookie uid).1 = fallback_encrypt env.machineId cookie := by
    intro hc
    cases havail : env.keyringAvailable with
    | false => simp [encrypt_cookie, havail]
    | true =>
      have hf : env.keyringWriteFails = true := by
        rcases hc with h | h
        · rw [havail] at h; exact absurd h (by simp)
        · exact h
      simp [encrypt_cookie, havail, hf]
  refine ⟨?_, ?_, ?_, ?_⟩
  · intro h1 h2
    simp [encrypt_cookie, h1, h2]
  · intro hc hm hcv
    rw [hfb hc]
    exact fallback_encrypt_tagged _ _ hm hcv
  · intro hc hinv
    rw [hfb hc]
    exact fallback_encrypt_invalid _ _ hinv
  · simp only [save_session]
    exact getSession_setSession_self sessions uid _

/-- Witness for claim C10: the keyring path, the tagged fallback, and the
plaintext fallback on a lone surrogate, each at concrete inputs. -/
theorem encrypt_cookie_totality_witness :
    (encrypt_cookie ⟨true, false, [], []⟩ (pstr "tok") (pstr "9")).1 =
      pstr "KEYRING:" ++ (pstr "session_" ++ pstr "9") ∧
    pyStartsWith (pstr "v1:")
      (encrypt_cookie ⟨false, false, [], pstr "HOSTbobWindows"⟩ (pstr "tok") (pstr "9")).1 = true ∧
    (encrypt_cookie ⟨false, false, [], pstr "HOSTbobWindows"⟩ [0xD800] (pstr "9")).1 = [0xD800] :=
  ⟨(encrypt_cookie_totality ⟨true, false, [], []⟩ (pstr "tok") (pstr "9") [] [] [] 0).1 rfl rfl,
   (encrypt_cookie_totality ⟨false, false, [], pstr "HOSTbobWindows"⟩ (pstr "tok") (pstr "9")
      [] [] [] 0).2.1 (Or.inl rfl) (by decide) (by decide),
   (encrypt_cookie_totality ⟨false, false, [], pstr "HOSTbobWindows"⟩ [0xD800] (pstr "9")
      [] [] [] 0).2.2.1 (Or.inl rfl) (Or.inr (by decide))⟩

/-- Witness for claim C9: the acceptance characterization instantiated at a
concrete valid archive. -/
theorem validate_backup_acceptance_witness :
    validate_backup (.zip
      [(pstr "backup_metadata.json", .parsed (.obj
         [(pstr "version", .num 2), (pstr "created", .str (pstr "now")),
          (pstr "source", .str (pstr "ShippingManagerCoPilot"))])),
       (pstr "userdata/x", .notUtf8)]) =
      .acc (.obj
         [(pstr "version", .num 2), (pstr "created", .str (pstr "now")),
          (pstr "source", .str (pstr "ShippingManagerCoPilot"))]) :=
  ((validate_backup_acceptance (.zip
      [(pstr "backup_metadata.json", .parsed (.obj
         [(pstr "version", .num 2), (pstr "created", .str (pstr "now")),
          (pstr "source", .str (pstr "ShippingManagerCoPilot"))])),
       (pstr "userdata/x", .notUtf8)])).1 (.obj
         [(pstr "version", .num 2), (pstr "created", .str (pstr "now")),
          (pstr "source", .str (pstr "ShippingManagerCoPilot"))])).mpr
    ⟨[(pstr "backup_metadata.json", .parsed (.obj
         [(pstr "version", .num 2), (pstr "created", .str (pstr "now")),
          (pstr "source", .str (pstr "ShippingManagerCoPilot"))])),
      (pstr "userdata/x", .notUtf8)],
     [(pstr "version", .num 2), (pstr "created", .str (pstr "now")),
      (pstr "source", .str (pstr "ShippingManagerCoPilot"))],
     rfl, rfl, rfl, rfl, rfl, rfl, rfl, rfl⟩
